import Mathlib

/-!
Shallow embedding of the EMOS microkernel process layer
(`src/process/pcb.rs`, `src/process/scheduler.rs`, `src/process/context.rs`,
`src/services/process_service.rs`, `src/syscalls.rs`, `src/interrupts.rs`).

Machine integers (`u64`, `usize`) are modelled as `Nat` with an explicit
`% 2^64` wherever the Rust release-mode arithmetic can wrap; `i32` exit codes
are stored as `Int` (they are only stored, never computed with).
`BTreeMap<ProcessId, _>` is modelled as a key-sorted association list, so that
iteration order (ascending pid) matches the Rust iteration order that the
schedulers depend on.
-/

namespace Emos

/-- `u64`/`usize` modulus. -/
def u64Mod : Nat := 2 ^ 64

/-- Wrapping `u64` subtraction (Rust release-mode `a - b`). -/
def sub64 (a b : Nat) : Nat := (a % u64Mod + (u64Mod - b % u64Mod)) % u64Mod

/-- `n as i32`: truncate to 32 bits and sign-extend. -/
def toI32 (n : Nat) : Int :=
  let m : Nat := n % 2 ^ 32
  if m < 2 ^ 31 then (m : Int) else (m : Int) - 2 ^ 32

/-- `ProcessState` from `src/process/pcb.rs`. -/
inductive ProcessState where
  | Running
  | Ready
  | Blocked
  | Terminated
  | Zombie
deriving DecidableEq

/-- `ProcessPriority` from `src/process/pcb.rs` (`Low = 0 .. Critical = 3`). -/
inductive ProcessPriority where
  | Low
  | Normal
  | High
  | Critical
deriving DecidableEq

/-- The numeric discriminant of a priority; `derive(PartialOrd, Ord)` on the
Rust enum compares priorities by this value. -/
def ProcessPriority.toNat : ProcessPriority → Nat
  | .Low => 0
  | .Normal => 1
  | .High => 2
  | .Critical => 3

/-- `CpuRegisters` from `src/process/pcb.rs`. -/
structure CpuRegisters where
  rax : Nat
  rbx : Nat
  rcx : Nat
  rdx : Nat
  rsi : Nat
  rdi : Nat
  rbp : Nat
  rsp : Nat
  r8 : Nat
  r9 : Nat
  r10 : Nat
  r11 : Nat
  r12 : Nat
  r13 : Nat
  r14 : Nat
  r15 : Nat
  rip : Nat
  rflags : Nat
  cs : Nat
  ss : Nat
  ds : Nat
  es : Nat
  fs : Nat
  gs : Nat
deriving DecidableEq

/-- `CpuRegisters::default()`: everything zero except
`rflags = 0x202` and the kernel segment selectors. -/
def CpuRegisters.default : CpuRegisters :=
  { rax := 0, rbx := 0, rcx := 0, rdx := 0
    rsi := 0, rdi := 0, rbp := 0, rsp := 0
    r8 := 0, r9 := 0, r10 := 0, r11 := 0
    r12 := 0, r13 := 0, r14 := 0, r15 := 0
    rip := 0, rflags := 0x202
    cs := 0x08, ss := 0x10, ds := 0x10, es := 0x10, fs := 0x10, gs := 0x10 }

/-- `ResourceType` from `src/process/pcb.rs`. -/
inductive ResourceType where
  | File
  | Device
  | Memory
  | Network
  | System
deriving DecidableEq

/-- `CapabilityPermissions` from `src/process/pcb.rs`. -/
structure CapabilityPermissions where
  read : Bool
  write : Bool
  execute : Bool
  admin : Bool
deriving DecidableEq

/-- `Capability` from `src/process/pcb.rs`. -/
structure Capability where
  resource_type : ResourceType
  resource_id : Nat
  permissions : CapabilityPermissions
deriving DecidableEq

/-- `ProcessControlBlock` from `src/process/pcb.rs`.  `VirtAddr` fields are
plain `Nat` addresses. -/
structure ProcessControlBlock where
  pid : Nat
  parent_pid : Option Nat
  name : String
  state : ProcessState
  priority : ProcessPriority
  registers : CpuRegisters
  stack_pointer : Nat
  stack_size : Nat
  heap_start : Nat
  heap_size : Nat
  page_table : Option Nat
  capabilities : List Capability
  open_files : List Nat
  working_directory : String
  exit_code : Option Int
  creation_time : Nat
  cpu_time : Nat
  memory_usage : Nat
deriving DecidableEq

/-- `ProcessError` from `src/process/pcb.rs`. -/
inductive ProcessError where
  | ProcessNotFound
  | ProcessAlreadyExists
  | NoCurrentProcess
  | ProcessNotBlocked
  | InsufficientMemory
  | InvalidProcessId
  | PermissionDenied
deriving DecidableEq

/-! ### `BTreeMap<ProcessId, ProcessControlBlock>` as a key-sorted assoc list -/

/-- Lookup the (first) entry with the given key (`BTreeMap::get`). -/
def mapLookup (k : Nat) : List (Nat × ProcessControlBlock) → Option ProcessControlBlock
  | [] => none
  | e :: rest => if e.1 = k then some e.2 else mapLookup k rest

/-- Insert, keeping keys sorted ascending and replacing an existing key
(`BTreeMap::insert`). -/
def mapInsert (k : Nat) (v : ProcessControlBlock) :
    List (Nat × ProcessControlBlock) → List (Nat × ProcessControlBlock)
  | [] => [(k, v)]
  | e :: rest =>
    if k < e.1 then (k, v) :: e :: rest
    else if k = e.1 then (k, v) :: rest
    else e :: mapInsert k v rest

/-- In-place mutation of the entry with key `k` (`BTreeMap::get_mut` followed
by field updates). -/
def mapUpdate (k : Nat) (f : ProcessControlBlock → ProcessControlBlock)
    (l : List (Nat × ProcessControlBlock)) : List (Nat × ProcessControlBlock) :=
  l.map fun e => if e.1 = k then (e.1, f e.2) else e

/-- Well-formedness of the map model: keys strictly ascending
(true of every `BTreeMap` iteration). -/
def MapWF (l : List (Nat × ProcessControlBlock)) : Prop :=
  l.Pairwise fun a b => a.1 < b.1

/-! ### `ProcessManager` (`src/process/pcb.rs`) -/

/-- `ProcessManager` state. -/
structure ProcessManager where
  next_pid : Nat
  processes : List (Nat × ProcessControlBlock)
  current_process : Option Nat
  ready_queue : List Nat
  blocked_queue : List Nat

/-- `ProcessManager::new()` — `next_pid` starts at 1. -/
def ProcessManager.new : ProcessManager :=
  { next_pid := 1, processes := [], current_process := none
    ready_queue := [], blocked_queue := [] }

/-- `ProcessManager::create_process`.  The pid is taken from `next_pid`
(`fetch_add(1)` wraps at `2^64`); stack and heap addresses are the fixed
constants from the source.  Always returns `Ok(pid)`. -/
def ProcessManager.create_process (st : ProcessManager) (name : String)
    (priority : ProcessPriority) (stack_size heap_size : Nat) :
    Except ProcessError Nat × ProcessManager :=
  let pid := st.next_pid
  let pcb : ProcessControlBlock :=
    { pid := pid
      parent_pid := st.current_process
      name := name
      state := .Ready
      priority := priority
      registers := CpuRegisters.default
      stack_pointer := 0x7FFFFFFFF000
      stack_size := stack_size
      heap_start := 0x10000000
      heap_size := heap_size
      page_table := none
      capabilities := []
      open_files := []
      working_directory := "/"
      exit_code := none
      creation_time := 0
      cpu_time := 0
      memory_usage := (stack_size + heap_size) % u64Mod }
  (.ok pid,
    { st with
      next_pid := (st.next_pid + 1) % u64Mod
      processes := mapInsert pid pcb st.processes
      ready_queue := st.ready_queue ++ [pid] })

/-- `ProcessManager::terminate_process`. -/
def ProcessManager.terminate_process (st : ProcessManager) (pid : Nat)
    (exit_code : Int) : Except ProcessError Unit × ProcessManager :=
  match mapLookup pid st.processes with
  | some _ =>
    (.ok (),
      { st with
        processes := mapUpdate pid
          (fun pcb => { pcb with state := .Terminated, exit_code := some exit_code })
          st.processes
        ready_queue := st.ready_queue.filter (fun p => p ≠ pid)
        blocked_queue := st.blocked_queue.filter (fun p => p ≠ pid)
        current_process :=
          if st.current_process = some pid then none else st.current_process })
  | none => (.error .ProcessNotFound, st)

/-- `ProcessManager::get_next_process` (queue-based round robin). -/
def ProcessManager.get_next_process (st : ProcessManager) :
    Option Nat × ProcessManager :=
  match st.ready_queue with
  | [] => (none, st)
  | pid :: rest => (some pid, { st with ready_queue := rest ++ [pid] })

/-- `ProcessManager::switch_to_process` — note: no check of the target's
current state. -/
def ProcessManager.switch_to_process (st : ProcessManager) (pid : Nat) :
    Except ProcessError Unit × ProcessManager :=
  match mapLookup pid st.processes with
  | some _ =>
    (.ok (),
      { st with
        processes := mapUpdate pid (fun pcb => { pcb with state := .Running }) st.processes
        current_process := some pid })
  | none => (.error .ProcessNotFound, st)

/-- `ProcessManager::block_current_process`. -/
def ProcessManager.block_current_process (st : ProcessManager) :
    Except ProcessError Unit × ProcessManager :=
  match st.current_process with
  | some pid =>
    match mapLookup pid st.processes with
    | some _ =>
      (.ok (),
        { st with
          processes := mapUpdate pid (fun pcb => { pcb with state := .Blocked }) st.processes
          blocked_queue := st.blocked_queue ++ [pid]
          current_process := none })
    | none => (.error .ProcessNotFound, st)
  | none => (.error .NoCurrentProcess, st)

/-- `ProcessManager::unblock_process`. -/
def ProcessManager.unblock_process (st : ProcessManager) (pid : Nat) :
    Except ProcessError Unit × ProcessManager :=
  match mapLookup pid st.processes with
  | some pcb =>
    if pcb.state = .Blocked then
      (.ok (),
        { st with
          processes := mapUpdate pid (fun p => { p with state := .Ready }) st.processes
          blocked_queue := st.blocked_queue.filter (fun p => p ≠ pid)
          ready_queue := st.ready_queue ++ [pid] })
    else (.error .ProcessNotBlocked, st)
  | none => (.error .ProcessNotFound, st)

/-! ### `ProcessScheduler` (`src/process/scheduler.rs`) -/

/-- `TIME_SLICE` from `src/process/scheduler.rs`. -/
def TIME_SLICE : Nat := 100

/-- `SchedulingAlgorithm`. -/
inductive SchedulingAlgorithm where
  | RoundRobin
  | Priority
  | FirstComeFirstServed
  | ShortestJobFirst
deriving DecidableEq

/-- `ProcessScheduler` state. -/
structure ProcessScheduler where
  current_process : Option Nat
  time_slice_remaining : Nat
  total_switches : Nat
  scheduling_algorithm : SchedulingAlgorithm

/-- `ProcessScheduler::new()`. -/
def ProcessScheduler.new : ProcessScheduler :=
  { current_process := none, time_slice_remaining := TIME_SLICE
    total_switches := 0, scheduling_algorithm := .RoundRobin }

/-- Stable insertion step: `x` is placed before the first element `y` with
`le x y`. -/
def insertStable {α : Type} (le : α → α → Bool) (x : α) : List α → List α
  | [] => [x]
  | y :: ys => if le x y then x :: y :: ys else y :: insertStable le x ys

/-- Model of Rust's stable `sort_by`: `le x y` means "`x` may stay before
`y`", i.e. the comparator does not return `Greater` on `(x, y)`.  Since a
stable sort's output is uniquely determined by the comparator and the input
order, this insertion sort computes exactly what `slice::sort_by` computes. -/
def sortStable {α : Type} (le : α → α → Bool) (l : List α) : List α :=
  l.foldr (insertStable le) []

/-- The ready pids, in ascending-pid (`BTreeMap` iteration) order; used by
`schedule_round_robin` and `ProcessService::schedule_next`. -/
def readyPids (processes : List (Nat × ProcessControlBlock)) : List Nat :=
  (processes.filter fun e => e.2.state == ProcessState.Ready).map (·.1)

/-- Shared tail of the four `schedule_*` policies: record the chosen pid,
reset the time slice, bump the switch counter. -/
def ProcessScheduler.choose (s : ProcessScheduler) (pid : Nat) :
    Option Nat × ProcessScheduler :=
  (some pid,
    { s with
      current_process := some pid
      time_slice_remaining := TIME_SLICE
      total_switches := (s.total_switches + 1) % u64Mod })

/-- The round-robin pick, shared verbatim between
`ProcessScheduler::schedule_round_robin` and
`ProcessService::schedule_next`: if the current pid occurs in the ready list,
take its cyclic successor, otherwise the first ready pid. -/
def rrSelect (current : Option Nat) (ready : List Nat) : Nat :=
  match current with
  | some cur =>
    match ready.findIdx? (fun pid => pid == cur) with
    | some current_idx => ready.getD ((current_idx + 1) % ready.length) 0
    | none => ready.getD 0 0
  | none => ready.getD 0 0

/-- `ProcessScheduler::schedule_round_robin`. -/
def ProcessScheduler.schedule_round_robin (s : ProcessScheduler)
    (processes : List (Nat × ProcessControlBlock)) :
    Option Nat × ProcessScheduler :=
  let ready := readyPids processes
  if ready.isEmpty then (none, s)
  else s.choose (rrSelect s.current_process ready)

/-- `ProcessScheduler::schedule_priority`: sort the `(pid, priority)` pairs by
descending priority with Rust's stable sort and take the first.  The stable
order keeps equal priorities in original (pid-ascending) order, so the
comparator `b.1.cmp(&a.1)` admits `x` before `y` iff `y.priority ≤ x.priority`. -/
def ProcessScheduler.schedule_priority (s : ProcessScheduler)
    (processes : List (Nat × ProcessControlBlock)) :
    Option Nat × ProcessScheduler :=
  let ready : List (Nat × ProcessPriority) :=
    (processes.filter fun e => e.2.state == ProcessState.Ready).map
      fun e => (e.1, e.2.priority)
  if ready.isEmpty then (none, s)
  else
    let sorted := sortStable (fun a b => b.2.toNat ≤ a.2.toNat) ready
    s.choose ((sorted.getD 0 (0, .Low)).1)

/-- `ProcessScheduler::schedule_fcfs`: stable sort ascending by
`creation_time`, take the first. -/
def ProcessScheduler.schedule_fcfs (s : ProcessScheduler)
    (processes : List (Nat × ProcessControlBlock)) :
    Option Nat × ProcessScheduler :=
  let ready : List (Nat × Nat) :=
    (processes.filter fun e => e.2.state == ProcessState.Ready).map
      fun e => (e.1, e.2.creation_time)
  if ready.isEmpty then (none, s)
  else
    let sorted := sortStable (fun a b => a.2 ≤ b.2) ready
    s.choose ((sorted.getD 0 (0, 0)).1)

/-- `ProcessScheduler::schedule_sjf`: stable sort ascending by
`memory_usage`, take the first. -/
def ProcessScheduler.schedule_sjf (s : ProcessScheduler)
    (processes : List (Nat × ProcessControlBlock)) :
    Option Nat × ProcessScheduler :=
  let ready : List (Nat × Nat) :=
    (processes.filter fun e => e.2.state == ProcessState.Ready).map
      fun e => (e.1, e.2.memory_usage)
  if ready.isEmpty then (none, s)
  else
    let sorted := sortStable (fun a b => a.2 ≤ b.2) ready
    s.choose ((sorted.getD 0 (0, 0)).1)

/-- `ProcessScheduler::schedule_next`: dispatch on the configured algorithm. -/
def ProcessScheduler.schedule_next (s : ProcessScheduler)
    (processes : List (Nat × ProcessControlBlock)) :
    Option Nat × ProcessScheduler :=
  match s.scheduling_algorithm with
  | .RoundRobin => s.schedule_round_robin processes
  | .Priority => s.schedule_priority processes
  | .FirstComeFirstServed => s.schedule_fcfs processes
  | .ShortestJobFirst => s.schedule_sjf processes

/-- `ProcessScheduler::should_preempt`. -/
def ProcessScheduler.should_preempt (s : ProcessScheduler) : Bool :=
  s.time_slice_remaining == 0

/-- `ProcessScheduler::tick`: decrement, floored at 0. -/
def ProcessScheduler.tick (s : ProcessScheduler) : ProcessScheduler :=
  if s.time_slice_remaining > 0 then
    { s with time_slice_remaining := s.time_slice_remaining - 1 }
  else s

/-- `ProcessScheduler::reset_time_slice`. -/
def ProcessScheduler.reset_time_slice (s : ProcessScheduler) : ProcessScheduler :=
  { s with time_slice_remaining := TIME_SLICE }

/-- `ProcessScheduler::force_switch`. -/
def ProcessScheduler.force_switch (s : ProcessScheduler) : ProcessScheduler :=
  { s with time_slice_remaining := 0 }

/-! ### `ContextManager` (`src/process/context.rs`) -/

/-- `ContextManager` state. -/
structure ContextManager where
  current_process : Option Nat
  kernel_stack : Nat

/-- `ContextManager::new()`. -/
def ContextManager.new : ContextManager :=
  { current_process := none, kernel_stack := 0xFFFF800000000000 }

/-- `ContextManager::get_current_registers` — the source returns
`CpuRegisters::default()` (placeholder implementation). -/
def ContextManager.get_current_registers (_ctx : ContextManager) : CpuRegisters :=
  CpuRegisters.default

/-- `ContextManager::save_context`: copy the live registers into the target
PCB (fails with `ProcessNotFound` if the pid is absent). -/
def ContextManager.save_context (ctx : ContextManager) (pid : Nat)
    (processes : List (Nat × ProcessControlBlock)) :
    Except ProcessError Unit × List (Nat × ProcessControlBlock) :=
  match mapLookup pid processes with
  | some _ =>
    (.ok (),
      mapUpdate pid (fun pcb => { pcb with registers := ctx.get_current_registers })
        processes)
  | none => (.error .ProcessNotFound, processes)

/-- `ContextManager::restore_context`: mark `pid` current (the register write
to the live CPU is a no-op placeholder in the source). -/
def ContextManager.restore_context (ctx : ContextManager) (pid : Nat)
    (processes : List (Nat × ProcessControlBlock)) :
    Except ProcessError Unit × ContextManager :=
  match mapLookup pid processes with
  | some _ => (.ok (), { ctx with current_process := some pid })
  | none => (.error .ProcessNotFound, ctx)

/-- `ContextManager::context_switch`: save `from` (if any), then restore
`to`; a save failure short-circuits. -/
def ContextManager.context_switch (ctx : ContextManager) (from_pid : Option Nat)
    (to_pid : Nat) (processes : List (Nat × ProcessControlBlock)) :
    Except ProcessError Unit × ContextManager × List (Nat × ProcessControlBlock) :=
  match from_pid with
  | some pid =>
    match ctx.save_context pid processes with
    | (.ok _, processes') =>
      match ctx.restore_context to_pid processes' with
      | (.ok _, ctx') => (.ok (), ctx', processes')
      | (.error e, ctx') => (.error e, ctx', processes')
    | (.error e, processes') => (.error e, ctx, processes')
  | none =>
    match ctx.restore_context to_pid processes with
    | (.ok _, ctx') => (.ok (), ctx', processes)
    | (.error e, ctx') => (.error e, ctx', processes)

/-! ### `ProcessService` (`src/services/process_service.rs`) -/

/-- `ProcessService` state.  The global `CONTEXT_MANAGER` used by
`schedule_next` is passed alongside explicitly. -/
structure ProcessService where
  processes : List (Nat × ProcessControlBlock)
  current_process : Option Nat
  next_pid : Nat

/-- `ProcessService::new()`. -/
def ProcessService.new : ProcessService :=
  { processes := [], current_process := none, next_pid := 1 }

/-- `ProcessService::init`: insert the kernel PCB (pid 0, Critical, Running)
and make it current. -/
def ProcessService.init (svc : ProcessService) : ProcessService :=
  let kernel_pcb : ProcessControlBlock :=
    { pid := 0
      parent_pid := none
      name := "kernel"
      state := .Running
      priority := .Critical
      registers := CpuRegisters.default
      stack_pointer := 0xFFFF800000000000
      stack_size := 0x10000
      heap_start := 0x10000000
      heap_size := 0x1000000
      page_table := none
      capabilities := []
      open_files := []
      working_directory := "/"
      exit_code := none
      creation_time := 0
      cpu_time := 0
      memory_usage := 0x10000 }
  { svc with
    processes := mapInsert 0 kernel_pcb svc.processes
    current_process := some 0 }

/-- `ProcessService::create_process`.  Stack and heap are placed at
pid-dependent addresses: `0x7FFF_FFFF_F000 - pid * stack_size` and
`0x1000_0000 + pid * heap_size`, with release-mode `u64`/`usize` wrapping.
(The additional canonical-address check performed by `VirtAddr::new`, which
panics on a non-canonical result, is not modelled; theorems that depend on
the address values carry explicit range hypotheses that keep the arithmetic
in the canonical, non-wrapping range.)  Always returns `Ok(pid)`. -/
def ProcessService.create_process (svc : ProcessService) (name : String)
    (priority : ProcessPriority) (stack_size heap_size : Nat) :
    Except ProcessError Nat × ProcessService :=
  let pid := svc.next_pid
  let pcb : ProcessControlBlock :=
    { pid := pid
      parent_pid := svc.current_process
      name := name
      state := .Ready
      priority := priority
      registers := CpuRegisters.default
      stack_pointer := sub64 0x7FFFFFFFF000 ((pid * stack_size) % u64Mod)
      stack_size := stack_size
      heap_start := (0x10000000 + pid * heap_size) % u64Mod
      heap_size := heap_size
      page_table := none
      capabilities := []
      open_files := []
      working_directory := "/"
      exit_code := none
      creation_time := 0
      cpu_time := 0
      memory_usage := (stack_size + heap_size) % u64Mod }
  (.ok pid,
    { svc with
      next_pid := (svc.next_pid + 1) % u64Mod
      processes := mapInsert pid pcb svc.processes })

/-- `ProcessService::terminate_process`. -/
def ProcessService.terminate_process (svc : ProcessService) (pid : Nat)
    (exit_code : Int) : Except ProcessError Unit × ProcessService :=
  match mapLookup pid svc.processes with
  | some _ =>
    (.ok (),
      { svc with
        processes := mapUpdate pid
          (fun pcb => { pcb with state := .Terminated, exit_code := some exit_code })
          svc.processes
        current_process :=
          if svc.current_process = some pid then none else svc.current_process })
  | none => (.error .ProcessNotFound, svc)

/-- `ProcessService::schedule_next`: pick the round-robin successor among the
Ready pids, mark it Running, perform the context switch, then update
`current_process`.  A context-switch failure returns `None` (with the
Running-state write already applied, as in the source). -/
def ProcessService.schedule_next (svc : ProcessService) (ctx : ContextManager) :
    Option Nat × ProcessService × ContextManager :=
  if (readyPids svc.processes).isEmpty then (none, svc, ctx)
  else
    match ContextManager.context_switch ctx svc.current_process
        (rrSelect svc.current_process (readyPids svc.processes))
        (mapUpdate (rrSelect svc.current_process (readyPids svc.processes))
          (fun pcb => { pcb with state := .Running }) svc.processes) with
    | (.error _, ctx', processes') => (none, { svc with processes := processes' }, ctx')
    | (.ok _, ctx', processes') =>
      (some (rrSelect svc.current_process (readyPids svc.processes)),
        { svc with
          processes := processes'
          current_process :=
            some (rrSelect svc.current_process (readyPids svc.processes)) }, ctx')

/-- `ProcessService::block_current_process`. -/
def ProcessService.block_current_process (svc : ProcessService) :
    Except ProcessError Unit × ProcessService :=
  match svc.current_process with
  | some pid =>
    match mapLookup pid svc.processes with
    | some _ =>
      (.ok (),
        { svc with
          processes := mapUpdate pid (fun pcb => { pcb with state := .Blocked }) svc.processes
          current_process := none })
    | none => (.error .ProcessNotFound, svc)
  | none => (.error .NoCurrentProcess, svc)

/-- `ProcessService::unblock_process`. -/
def ProcessService.unblock_process (svc : ProcessService) (pid : Nat) :
    Except ProcessError Unit × ProcessService :=
  match mapLookup pid svc.processes with
  | some pcb =>
    if pcb.state = .Blocked then
      (.ok (),
        { svc with
          processes := mapUpdate pid (fun p => { p with state := .Ready }) svc.processes })
    else (.error .ProcessNotBlocked, svc)
  | none => (.error .ProcessNotFound, svc)

/-! ### Syscall dispatcher (`src/syscalls.rs`) -/

/-- `SyscallArgs`. -/
structure SyscallArgs where
  arg0 : Nat
  arg1 : Nat
  arg2 : Nat
  arg3 : Nat
  arg4 : Nat
  arg5 : Nat
deriving DecidableEq

/-- `SyscallError`, in declaration order (the `as u64` discriminants are
`0 .. 10`). -/
inductive SyscallError where
  | InvalidSyscall
  | InvalidArgument
  | PermissionDenied
  | OutOfMemory
  | ProcessNotFound
  | InvalidProcessId
  | MessageQueueFull
  | NoMessageAvailable
  | InvalidMemoryRegion
  | CapabilityDenied
  | NoCurrentProcess
deriving DecidableEq

/-- The Rust discriminant (`err as u64`). -/
def SyscallError.code : SyscallError → Nat
  | .InvalidSyscall => 0
  | .InvalidArgument => 1
  | .PermissionDenied => 2
  | .OutOfMemory => 3
  | .ProcessNotFound => 4
  | .InvalidProcessId => 5
  | .MessageQueueFull => 6
  | .NoMessageAvailable => 7
  | .InvalidMemoryRegion => 8
  | .CapabilityDenied => 9
  | .NoCurrentProcess => 10

/-- `SyscallResult`. -/
inductive SyscallResult where
  | Success (value : Nat)
  | Error (err : SyscallError)
deriving DecidableEq

/-- `impl From<SyscallResult> for u64`: a success value passes through
unchanged; an error is `0x8000_0000_0000_0000 | discriminant`. -/
def SyscallResult.toU64 : SyscallResult → Nat
  | .Success value => value
  | .Error err => 0x8000000000000000 ||| err.code

/-- `syscall_send_message` (stub: always `Success(0)`). -/
def syscall_send_message (_args : SyscallArgs) : SyscallResult := .Success 0

/-- `syscall_receive_message` (stub). -/
def syscall_receive_message (_args : SyscallArgs) : SyscallResult := .Success 0

/-- `syscall_allocate_memory` (stub). -/
def syscall_allocate_memory (_args : SyscallArgs) : SyscallResult := .Success 0

/-- `syscall_deallocate_memory` (stub). -/
def syscall_deallocate_memory (_args : SyscallArgs) : SyscallResult := .Success 0

/-- `syscall_map_memory` (stub). -/
def syscall_map_memory (_args : SyscallArgs) : SyscallResult := .Success 0

/-- `syscall_unmap_memory` (stub). -/
def syscall_unmap_memory (_args : SyscallArgs) : SyscallResult := .Success 0

/-- `syscall_create_process`: decode the priority from `arg2` (out-of-range
defaults to Normal), read the name from raw memory (`readName` abstracts the
`(ptr, len)` untrusted-memory read, including the `str::from_utf8 …
unwrap_or("unknown")` fallback), then delegate to
`ProcessService::create_process`. -/
def syscall_create_process (readName : Nat → Nat → String) (args : SyscallArgs)
    (svc : ProcessService) : SyscallResult × ProcessService :=
  let priority : ProcessPriority :=
    match args.arg2 with
    | 0 => .Low
    | 1 => .Normal
    | 2 => .High
    | 3 => .Critical
    | _ => .Normal
  let name := readName args.arg0 args.arg1
  match svc.create_process name priority args.arg3 args.arg4 with
  | (.ok pid, svc') => (.Success pid, svc')
  | (.error _, svc') => (.Error .ProcessNotFound, svc')

/-- `syscall_exit_process`: terminate the current process with exit code
`arg0 as i32`. -/
def syscall_exit_process (args : SyscallArgs) (svc : ProcessService) :
    SyscallResult × ProcessService :=
  match svc.current_process with
  | some current_pid =>
    match svc.terminate_process current_pid (toI32 args.arg0) with
    | (.ok _, svc') => (.Success 0, svc')
    | (.error _, svc') => (.Error .ProcessNotFound, svc')
  | none => (.Error .NoCurrentProcess, svc)

/-- `syscall_yield`: run the service scheduler; `Success(pid)` on a switch,
`Success(0)` when nothing is Ready. -/
def syscall_yield (_args : SyscallArgs) (svc : ProcessService)
    (ctx : ContextManager) : SyscallResult × ProcessService × ContextManager :=
  match svc.schedule_next ctx with
  | (some next_pid, svc', ctx') => (.Success next_pid, svc', ctx')
  | (none, svc', ctx') => (.Success 0, svc', ctx')

/-- `syscall_get_pid`. -/
def syscall_get_pid (_args : SyscallArgs) (svc : ProcessService) : SyscallResult :=
  match svc.current_process with
  | some pid => .Success pid
  | none => .Error .NoCurrentProcess

/-- `handle_syscall`: route on the syscall number; anything outside `0..=9`
is `Error(InvalidSyscall)`.  The global `PROCESS_SERVICE` and
`CONTEXT_MANAGER` states are threaded explicitly. -/
def handle_syscall (readName : Nat → Nat → String) (syscall_num : Nat)
    (args : SyscallArgs) (svc : ProcessService) (ctx : ContextManager) :
    SyscallResult × ProcessService × ContextManager :=
  match syscall_num with
  | 0 => (syscall_send_message args, svc, ctx)
  | 1 => (syscall_receive_message args, svc, ctx)
  | 2 => (syscall_allocate_memory args, svc, ctx)
  | 3 => (syscall_deallocate_memory args, svc, ctx)
  | 4 =>
    match syscall_create_process readName args svc with
    | (r, svc') => (r, svc', ctx)
  | 5 =>
    match syscall_exit_process args svc with
    | (r, svc') => (r, svc', ctx)
  | 6 => syscall_yield args svc ctx
  | 7 => (syscall_get_pid args svc, svc, ctx)
  | 8 => (syscall_map_memory args, svc, ctx)
  | 9 => (syscall_unmap_memory args, svc, ctx)
  | _ => (.Error .InvalidSyscall, svc, ctx)

/-! ### `syscall_entry` (`src/interrupts.rs`)

The naked trap entry is modelled as a straight-line transition on a machine
state of general-purpose registers, a stack pointer, and an 8-byte-granular
memory.  The dispatcher (`syscall_dispatch`) is a parameter
`dispatch : num → a0 → a1 → a2 → a3 → a4 → a5 → result`; per the SysV ABI it
receives its seven arguments from `rdi, rsi, rdx, rcx, r8, r9` and the top
stack slot, and returns in `rax`.  The callee may freely clobber every
caller-saved register (the asm never reads them after the call — every
register is reloaded from the stack by the pops) and any memory at or below
its stack-argument slot (modelled by the arbitrary `scratch` function); it
must preserve the caller's stack memory above that slot. -/

/-- General-purpose registers of the model. -/
structure Regs where
  rax : Nat
  rbx : Nat
  rcx : Nat
  rdx : Nat
  rsi : Nat
  rdi : Nat
  rbp : Nat
  r8 : Nat
  r9 : Nat
  r10 : Nat
  r11 : Nat
  r12 : Nat
  r13 : Nat
  r14 : Nat
  r15 : Nat
deriving DecidableEq

/-- Machine state: registers, stack pointer, memory keyed by address. -/
structure Mach where
  regs : Regs
  rsp : Nat
  mem : Nat → Nat

/-- One memory write. -/
def writeMem (m : Nat → Nat) (a v : Nat) : Nat → Nat :=
  fun x => if x = a then v else m x

/-- Callee-owned memory: per the SysV ABI the called function may freely
overwrite its stack-argument slot and everything below it, and must preserve
the caller's stack above; `scratch` stands for whatever it left there. -/
def clobberBelow (scratch m : Nat → Nat) (bound : Nat) : Nat → Nat :=
  fun a => if a ≤ bound then scratch a else m a

/-- The `syscall_entry` routine, instruction by instruction: 15 pushes,
the `sub rsp, 8` alignment pad, the argument reloads from their stack
offsets, the 7th-argument push, the call, the two `add rsp, 8`, the
`mov [rsp+8], rax` write-back, and the 15 pops (the final `iretq` does not
touch the general-purpose registers). -/
def syscall_entry (dispatch : Nat → Nat → Nat → Nat → Nat → Nat → Nat → Nat)
    (scratch : Nat → Nat) (s0 : Mach) : Mach :=
  let sp0 := s0.rsp
  -- push r15 .. push rax
  let m1 := writeMem s0.mem (sp0 - 8) s0.regs.r15
  let m2 := writeMem m1 (sp0 - 16) s0.regs.r14
  let m3 := writeMem m2 (sp0 - 24) s0.regs.r13
  let m4 := writeMem m3 (sp0 - 32) s0.regs.r12
  let m5 := writeMem m4 (sp0 - 40) s0.regs.r11
  let m6 := writeMem m5 (sp0 - 48) s0.regs.r10
  let m7 := writeMem m6 (sp0 - 56) s0.regs.r9
  let m8 := writeMem m7 (sp0 - 64) s0.regs.r8
  let m9 := writeMem m8 (sp0 - 72) s0.regs.rbp
  let m10 := writeMem m9 (sp0 - 80) s0.regs.rdi
  let m11 := writeMem m10 (sp0 - 88) s0.regs.rsi
  let m12 := writeMem m11 (sp0 - 96) s0.regs.rdx
  let m13 := writeMem m12 (sp0 - 104) s0.regs.rcx
  let m14 := writeMem m13 (sp0 - 112) s0.regs.rbx
  let m15 := writeMem m14 (sp0 - 120) s0.regs.rax
  -- sub rsp, 8 (stack pointer is now sp0 - 128)
  -- mov rdi, [rsp+8]; mov rsi, [rsp+48]; mov rdx, [rsp+40]; mov rcx, [rsp+32];
  -- mov r8, [rsp+80]; mov r9, [rsp+64]; mov rax, [rsp+72]
  let vrdi := m15 (sp0 - 128 + 8)
  let vrsi := m15 (sp0 - 128 + 48)
  let vrdx := m15 (sp0 - 128 + 40)
  let vrcx := m15 (sp0 - 128 + 32)
  let vr8 := m15 (sp0 - 128 + 80)
  let vr9 := m15 (sp0 - 128 + 64)
  let vrax := m15 (sp0 - 128 + 72)
  -- push rax (7th argument; stack pointer is now sp0 - 136)
  let m16 := writeMem m15 (sp0 - 136) vrax
  -- call syscall_dispatch (SysV: rdi, rsi, rdx, rcx, r8, r9, [rsp])
  let ret := dispatch vrdi vrsi vrdx vrcx vr8 vr9 (m16 (sp0 - 136))
  -- the callee owns memory at and below its stack-argument slot
  let m17 := clobberBelow scratch m16 (sp0 - 136)
  -- add rsp, 8; add rsp, 8 (stack pointer is back at sp0 - 120)
  -- mov [rsp+8], rax
  let m18 := writeMem m17 (sp0 - 120 + 8) ret
  -- pop rax .. pop r15, then iretq
  { regs :=
      { rax := m18 (sp0 - 120)
        rbx := m18 (sp0 - 112)
        rcx := m18 (sp0 - 104)
        rdx := m18 (sp0 - 96)
        rsi := m18 (sp0 - 88)
        rdi := m18 (sp0 - 80)
        rbp := m18 (sp0 - 72)
        r8 := m18 (sp0 - 64)
        r9 := m18 (sp0 - 56)
        r10 := m18 (sp0 - 48)
        r11 := m18 (sp0 - 40)
        r12 := m18 (sp0 - 32)
        r13 := m18 (sp0 - 24)
        r14 := m18 (sp0 - 16)
        r15 := m18 (sp0 - 8) }
    rsp := sp0
    mem := m18 }

/-! ### Operation sequences over the two registries -/

/-- The public `ProcessManager` operations. -/
inductive PMOp where
  | create (name : String) (priority : ProcessPriority) (stack_size heap_size : Nat)
  | terminate (pid : Nat) (exit_code : Int)
  | blockCurrent
  | unblock (pid : Nat)
  | switchTo (pid : Nat)
  | getNext

/-- State effect of one `ProcessManager` operation. -/
def PMOp.step : PMOp → ProcessManager → ProcessManager
  | .create n p ss hs, st => (st.create_process n p ss hs).2
  | .terminate pid c, st => (st.terminate_process pid c).2
  | .blockCurrent, st => st.block_current_process.2
  | .unblock pid, st => (st.unblock_process pid).2
  | .switchTo pid, st => (st.switch_to_process pid).2
  | .getNext, st => st.get_next_process.2

/-- Run a sequence of `ProcessManager` operations. -/
def runPM (ops : List PMOp) (st : ProcessManager) : ProcessManager :=
  ops.foldl (fun s op => op.step s) st

/-- The pids returned by the `create` operations of a sequence, in order. -/
def pmIssued : List PMOp → ProcessManager → List Nat
  | [], _ => []
  | .create n p ss hs :: rest, st =>
    match st.create_process n p ss hs with
    | (.ok pid, st') => pid :: pmIssued rest st'
    | (.error _, st') => pmIssued rest st'
  | op :: rest, st => pmIssued rest (op.step st)

/-- Number of `create` operations in a sequence. -/
def pmCreateCount : List PMOp → Nat
  | [] => 0
  | .create _ _ _ _ :: rest => pmCreateCount rest + 1
  | _ :: rest => pmCreateCount rest

/-- The public `ProcessService` operations (`schedule_next` also involves the
global `ContextManager`, threaded through the run state). -/
inductive PSOp where
  | init
  | create (name : String) (priority : ProcessPriority) (stack_size heap_size : Nat)
  | terminate (pid : Nat) (exit_code : Int)
  | blockCurrent
  | unblock (pid : Nat)
  | scheduleNext

/-- State effect of one `ProcessService` operation. -/
def PSOp.step : PSOp → ProcessService × ContextManager → ProcessService × ContextManager
  | .init, (svc, ctx) => (svc.init, ctx)
  | .create n p ss hs, (svc, ctx) => ((svc.create_process n p ss hs).2, ctx)
  | .terminate pid c, (svc, ctx) => ((svc.terminate_process pid c).2, ctx)
  | .blockCurrent, (svc, ctx) => (svc.block_current_process.2, ctx)
  | .unblock pid, (svc, ctx) => ((svc.unblock_process pid).2, ctx)
  | .scheduleNext, (svc, ctx) =>
    match svc.schedule_next ctx with
    | (_, svc', ctx') => (svc', ctx')

/-- The pids returned by the `create` operations of a service sequence. -/
def psIssued : List PSOp → ProcessService × ContextManager → List Nat
  | [], _ => []
  | .create n p ss hs :: rest, (svc, ctx) =>
    match svc.create_process n p ss hs with
    | (.ok pid, svc') => pid :: psIssued rest (svc', ctx)
    | (.error _, svc') => psIssued rest (svc', ctx)
  | op :: rest, s => psIssued rest (op.step s)

/-- Number of `create` operations in a service sequence. -/
def psCreateCount : List PSOp → Nat
  | [] => 0
  | .create _ _ _ _ :: rest => psCreateCount rest + 1
  | _ :: rest => psCreateCount rest

/-! ### Helper lemmas about the map model -/

theorem mapLookup_mapInsert_self (k : Nat) (v : ProcessControlBlock)
    (l : List (Nat × ProcessControlBlock)) :
    mapLookup k (mapInsert k v l) = some v := by
  induction l with
  | nil => simp [mapInsert, mapLookup]
  | cons e rest ih =>
    by_cases hlt : k < e.1
    · simp [mapInsert, hlt, mapLookup]
    · by_cases heq : k = e.1
      · simp [mapInsert, hlt, heq, mapLookup]
      · have hne : e.1 ≠ k := fun h => heq h.symm
        simp [mapInsert, hlt, heq, mapLookup, hne, ih]

theorem mapLookup_mapUpdate_self (k : Nat) (f : ProcessControlBlock → ProcessControlBlock)
    (l : List (Nat × ProcessControlBlock)) :
    mapLookup k (mapUpdate k f l) = (mapLookup k l).map f := by
  induction l with
  | nil => simp [mapUpdate, mapLookup]
  | cons e rest ih =>
    by_cases heq : e.1 = k
    · simp [mapUpdate, mapLookup, heq] at *
    · simp [mapUpdate, mapLookup, heq] at *
      exact ih

theorem mapLookup_mapUpdate_ne (k c : Nat) (hck : c ≠ k)
    (f : ProcessControlBlock → ProcessControlBlock)
    (l : List (Nat × ProcessControlBlock)) :
    mapLookup c (mapUpdate k f l) = mapLookup c l := by
  have hkc : ¬(k = c) := fun h => hck h.symm
  induction l with
  | nil => simp [mapUpdate, mapLookup]
  | cons e rest ih =>
    by_cases hek : e.1 = k
    · have hec : e.1 ≠ c := by omega
      simp [mapUpdate, mapLookup, hek, hec, hkc] at *
      exact ih
    · by_cases hec : e.1 = c
      · simp [mapUpdate, mapLookup, hek, hec, hkc, hck]
      · simp [mapUpdate, mapLookup, hek, hec, hkc, hck] at *
        exact ih

theorem mapLookup_mem (k : Nat) (v : ProcessControlBlock)
    (l : List (Nat × ProcessControlBlock)) (h : mapLookup k l = some v) :
    (k, v) ∈ l := by
  induction l with
  | nil => simp [mapLookup] at h
  | cons e rest ih =>
    by_cases heq : e.1 = k
    · rw [mapLookup, if_pos heq] at h
      have hv := Option.some.inj h
      have he : (k, v) = e := by rw [← heq, ← hv]
      exact he ▸ List.mem_cons_self _ _
    · simp [mapLookup, heq] at h
      exact List.mem_cons_of_mem _ (ih h)

theorem mem_mapLookup (k : Nat) (v : ProcessControlBlock)
    (l : List (Nat × ProcessControlBlock)) (hwf : MapWF l) (h : (k, v) ∈ l) :
    mapLookup k l = some v := by
  induction l with
  | nil => simp at h
  | cons e rest ih =>
    rcases List.mem_cons.mp h with h1 | h2
    · subst h1
      simp [mapLookup]
    · have hlt : e.1 < k := (List.pairwise_cons.mp hwf).1 _ h2
      have hne : e.1 ≠ k := by omega
      simp [mapLookup, hne]
      exact ih (List.pairwise_cons.mp hwf).2 h2

/-! ### Helper lemmas about the stable sort and the selections -/

theorem mem_insertStable {α : Type} (le : α → α → Bool) (x a : α) (l : List α) :
    a ∈ insertStable le x l ↔ a = x ∨ a ∈ l := by
  induction l with
  | nil => simp [insertStable]
  | cons y ys ih =>
    by_cases h : le x y
    · simp [insertStable, h]
    · simp [insertStable, h, ih]
      tauto

theorem mem_sortStable {α : Type} (le : α → α → Bool) (a : α) (l : List α) :
    a ∈ sortStable le l ↔ a ∈ l := by
  induction l with
  | nil => simp [sortStable]
  | cons y ys ih =>
    rw [sortStable, List.foldr_cons, mem_insertStable]
    rw [sortStable] at ih
    simp [ih]

theorem length_insertStable {α : Type} (le : α → α → Bool) (x : α) (l : List α) :
    (insertStable le x l).length = l.length + 1 := by
  induction l with
  | nil => simp [insertStable]
  | cons y ys ih =>
    by_cases h : le x y
    · simp [insertStable, h]
    · simp [insertStable, h, ih]

theorem length_sortStable {α : Type} (le : α → α → Bool) (l : List α) :
    (sortStable le l).length = l.length := by
  induction l with
  | nil => rfl
  | cons y ys ih =>
    rw [sortStable, List.foldr_cons, length_insertStable]
    rw [sortStable] at ih
    rw [ih, List.length_cons]

theorem getD_mem {α : Type} (l : List α) (i : Nat) (d : α) (h : i < l.length) :
    l.getD i d ∈ l := by
  induction l generalizing i with
  | nil => simp at h
  | cons y ys ih =>
    cases i with
    | zero => simp [List.getD]
    | succ j =>
      simp only [List.getD_cons_succ]
      exact List.mem_cons_of_mem _ (ih j (by simpa using h))

theorem rrSelect_mem (current : Option Nat) (ready : List Nat) (h : ready ≠ []) :
    rrSelect current ready ∈ ready := by
  have hlen : 0 < ready.length := List.length_pos.mpr h
  cases current with
  | none => exact getD_mem _ _ _ hlen
  | some cur =>
    rw [rrSelect]
    cases hidx : ready.findIdx? (fun pid => pid == cur) with
    | none => exact getD_mem _ _ _ hlen
    | some idx => exact getD_mem _ _ _ (Nat.mod_lt _ hlen)

/-- The first element of maximal priority (ties go to the earlier element):
this is what the head of the stably descending-sorted list is. -/
def firstMaxP : List (Nat × ProcessPriority) → Option (Nat × ProcessPriority)
  | [] => none
  | x :: xs =>
    match firstMaxP xs with
    | none => some x
    | some m => if x.2.toNat < m.2.toNat then some m else some x

theorem head?_sortStable_prio (l : List (Nat × ProcessPriority)) :
    (sortStable (fun a b : Nat × ProcessPriority => b.2.toNat ≤ a.2.toNat) l).head? =
      firstMaxP l := by
  induction l with
  | nil => rfl
  | cons x xs ih =>
    rw [sortStable, List.foldr_cons]
    rw [sortStable] at ih
    rw [firstMaxP, ← ih]
    cases hs : List.foldr (insertStable fun a b : Nat × ProcessPriority =>
        decide (b.2.toNat ≤ a.2.toNat)) [] xs with
    | nil => simp [insertStable]
    | cons y ys =>
      by_cases hle : y.2.toNat ≤ x.2.toNat
      · have hnlt : ¬ x.2.toNat < y.2.toNat := by omega
        simp [insertStable, hle, hnlt]
      · have hlt : x.2.toNat < y.2.toNat := by omega
        simp [insertStable, hle, hlt]

theorem firstMaxP_eq_none (l : List (Nat × ProcessPriority)) :
    firstMaxP l = none ↔ l = [] := by
  cases l with
  | nil => simp [firstMaxP]
  | cons x xs =>
    simp only [firstMaxP]
    cases firstMaxP xs with
    | none => simp
    | some m =>
      by_cases h : x.2.toNat < m.2.toNat <;> simp [h]

theorem firstMaxP_spec (l : List (Nat × ProcessPriority)) (m : Nat × ProcessPriority)
    (hs : l.Pairwise fun a b => a.1 < b.1) (h : firstMaxP l = some m) :
    m ∈ l ∧ (∀ y ∈ l, y.2.toNat ≤ m.2.toNat) ∧
      (∀ y ∈ l, y.2.toNat = m.2.toNat → m.1 ≤ y.1) := by
  induction l generalizing m with
  | nil => simp [firstMaxP] at h
  | cons x xs ih =>
    obtain ⟨hx, hxs⟩ := List.pairwise_cons.mp hs
    rw [firstMaxP] at h
    cases hfm : firstMaxP xs with
    | none =>
      rw [hfm] at h
      have hm : m = x := (Option.some.inj h).symm
      subst hm
      have hxs0 : xs = [] := (firstMaxP_eq_none xs).mp hfm
      subst hxs0
      refine ⟨List.mem_cons_self _ _, ?_, ?_⟩
      · intro y hy
        rcases List.mem_cons.mp hy with h1 | h2
        · subst h1; exact Nat.le.refl
        · simp at h2
      · intro y hy _
        rcases List.mem_cons.mp hy with h1 | h2
        · subst h1; exact Nat.le.refl
        · simp at h2
    | some m' =>
      rw [hfm] at h
      have h' : (if x.2.toNat < m'.2.toNat then some m' else some x) = some m := h
      by_cases hc : x.2.toNat < m'.2.toNat
      · rw [if_pos hc] at h'
        have hm : m = m' := (Option.some.inj h').symm
        subst hm
        obtain ⟨hmem, hbound, htie⟩ := ih m hxs hfm
        refine ⟨List.mem_cons_of_mem _ hmem, ?_, ?_⟩
        · intro y hy
          rcases List.mem_cons.mp hy with h1 | h2
          · subst h1; omega
          · exact hbound y h2
        · intro y hy hye
          rcases List.mem_cons.mp hy with h1 | h2
          · subst h1; omega
          · exact htie y h2 hye
      · rw [if_neg hc] at h'
        have hm : m = x := (Option.some.inj h').symm
        subst hm
        obtain ⟨hmem, hbound, _⟩ := ih m' hxs hfm
        refine ⟨List.mem_cons_self _ _, ?_, ?_⟩
        · intro y hy
          rcases List.mem_cons.mp hy with h1 | h2
          · subst h1; exact Nat.le.refl
          · have := hbound y h2; omega
        · intro y hy _
          rcases List.mem_cons.mp hy with h1 | h2
          · subst h1; exact Nat.le.refl
          · exact Nat.le_of_lt (hx y h2)

/-! ### Ready-list lemmas -/

theorem mem_filter_ready (l : List (Nat × ProcessControlBlock)) (hwf : MapWF l)
    (e : Nat × ProcessControlBlock)
    (he : e ∈ l.filter fun e => e.2.state == ProcessState.Ready) :
    mapLookup e.1 l = some e.2 ∧ e.2.state = ProcessState.Ready := by
  obtain ⟨hmem, hst⟩ := List.mem_filter.mp he
  exact ⟨mem_mapLookup e.1 e.2 l hwf hmem, by simpa using hst⟩

theorem mem_readyPids (l : List (Nat × ProcessControlBlock)) (hwf : MapWF l)
    (p : Nat) (hp : p ∈ readyPids l) :
    ∃ pcb, mapLookup p l = some pcb ∧ pcb.state = ProcessState.Ready := by
  obtain ⟨e, he, hep⟩ := List.mem_map.mp hp
  obtain ⟨hl, hs⟩ := mem_filter_ready l hwf e he
  exact ⟨e.2, hep ▸ hl, hs⟩

theorem pairs_fst_ready {β : Type} (key : ProcessControlBlock → β)
    (l : List (Nat × ProcessControlBlock)) (hwf : MapWF l) (pr : Nat × β)
    (hpr : pr ∈ (l.filter fun e => e.2.state == ProcessState.Ready).map
      fun e => (e.1, key e.2)) :
    ∃ pcb, mapLookup pr.1 l = some pcb ∧ pcb.state = ProcessState.Ready ∧
      key pcb = pr.2 := by
  obtain ⟨e, he, heq⟩ := List.mem_map.mp hpr
  obtain ⟨hl, hs⟩ := mem_filter_ready l hwf e he
  refine ⟨e.2, ?_, hs, ?_⟩
  · rw [← heq]
    exact hl
  · rw [← heq]

theorem pick_pair_mem {β : Type} (le : Nat × β → Nat × β → Bool)
    (pairs : List (Nat × β)) (d : Nat × β) (h : ¬ pairs.isEmpty = true) :
    (sortStable le pairs).getD 0 d ∈ pairs := by
  have hne : pairs ≠ [] := by simpa [List.isEmpty_iff] using h
  have hlen : 0 < (sortStable le pairs).length := by
    rw [length_sortStable]
    exact List.length_pos.mpr hne
  exact (mem_sortStable le _ pairs).mp (getD_mem _ _ _ hlen)

/-- The state field survives any PCB mutation that does not touch it. -/
theorem mapLookup_state_mapUpdate (k c : Nat)
    (f : ProcessControlBlock → ProcessControlBlock)
    (hf : ∀ p, (f p).state = p.state) (l : List (Nat × ProcessControlBlock)) :
    (mapLookup c (mapUpdate k f l)).map (·.state) =
      (mapLookup c l).map (·.state) := by
  by_cases hck : c = k
  · subst hck
    rw [mapLookup_mapUpdate_self]
    cases mapLookup c l with
    | none => rfl
    | some v => simp [hf]
  · rw [mapLookup_mapUpdate_ne _ _ hck]

/-! ### Characterizations of the scheduling policies -/

theorem choose_fst (s : ProcessScheduler) (p : Nat) : (s.choose p).1 = some p := rfl

theorem choose_slice (s : ProcessScheduler) (p : Nat) :
    (s.choose p).2.time_slice_remaining = TIME_SLICE := rfl

/-- Every policy either returns `none` or commits to `choose p` for some `p`
that is Ready in the table. -/
theorem schedule_next_some_mem (s : ProcessScheduler)
    (procs : List (Nat × ProcessControlBlock)) (hwf : MapWF procs) (p : Nat)
    (h : (s.schedule_next procs).1 = some p) :
    ∃ pcb, mapLookup p procs = some pcb ∧ pcb.state = ProcessState.Ready := by
  rw [ProcessScheduler.schedule_next] at h
  cases halg : s.scheduling_algorithm <;> rw [halg] at h
  case RoundRobin =>
    rw [ProcessScheduler.schedule_round_robin] at h
    by_cases he : (readyPids procs).isEmpty
    · rw [if_pos he] at h
      exact absurd h (by simp)
    · rw [if_neg he] at h
      rw [choose_fst] at h
      have hp := Option.some.inj h
      have hmem : p ∈ readyPids procs := by
        rw [← hp]
        exact rrSelect_mem _ _ (by simpa [List.isEmpty_iff] using he)
      exact mem_readyPids _ hwf _ hmem
  case Priority =>
    rw [ProcessScheduler.schedule_priority] at h
    by_cases he : ((procs.filter fun e => e.2.state == ProcessState.Ready).map
        fun e => (e.1, e.2.priority)).isEmpty
    · rw [if_pos he] at h
      exact absurd h (by simp)
    · rw [if_neg he] at h
      rw [choose_fst] at h
      have hp := Option.some.inj h
      have hmem := pick_pair_mem (fun a b => decide (b.2.toNat ≤ a.2.toNat)) _
        ((0 : Nat), ProcessPriority.Low) he
      obtain ⟨pcb, hl, hs, _⟩ := pairs_fst_ready (fun pcb => pcb.priority) procs hwf _ hmem
      exact ⟨pcb, hp ▸ hl, hs⟩
  case FirstComeFirstServed =>
    rw [ProcessScheduler.schedule_fcfs] at h
    by_cases he : ((procs.filter fun e => e.2.state == ProcessState.Ready).map
        fun e => (e.1, e.2.creation_time)).isEmpty
    · rw [if_pos he] at h
      exact absurd h (by simp)
    · rw [if_neg he] at h
      rw [choose_fst] at h
      have hp := Option.some.inj h
      have hmem := pick_pair_mem (fun a b : Nat × Nat => decide (a.2 ≤ b.2)) _
        ((0 : Nat), (0 : Nat)) he
      obtain ⟨pcb, hl, hs, _⟩ := pairs_fst_ready (fun pcb => pcb.creation_time) procs hwf _ hmem
      exact ⟨pcb, hp ▸ hl, hs⟩
  case ShortestJobFirst =>
    rw [ProcessScheduler.schedule_sjf] at h
    by_cases he : ((procs.filter fun e => e.2.state == ProcessState.Ready).map
        fun e => (e.1, e.2.memory_usage)).isEmpty
    · rw [if_pos he] at h
      exact absurd h (by simp)
    · rw [if_neg he] at h
      rw [choose_fst] at h
      have hp := Option.some.inj h
      have hmem := pick_pair_mem (fun a b : Nat × Nat => decide (a.2 ≤ b.2)) _
        ((0 : Nat), (0 : Nat)) he
      obtain ⟨pcb, hl, hs, _⟩ := pairs_fst_ready (fun pcb => pcb.memory_usage) procs hwf _ hmem
      exact ⟨pcb, hp ▸ hl, hs⟩

theorem schedule_rr_slice (s : ProcessScheduler)
    (procs : List (Nat × ProcessControlBlock)) (p : Nat)
    (h : (s.schedule_round_robin procs).1 = some p) :
    (s.schedule_round_robin procs).2.time_slice_remaining = TIME_SLICE := by
  rw [ProcessScheduler.schedule_round_robin] at h ⊢
  by_cases he : (readyPids procs).isEmpty
  · rw [if_pos he] at h
    exact absurd h (by simp)
  · rw [if_neg he]
    exact choose_slice ..

theorem schedule_priority_slice (s : ProcessScheduler)
    (procs : List (Nat × ProcessControlBlock)) (p : Nat)
    (h : (s.schedule_priority procs).1 = some p) :
    (s.schedule_priority procs).2.time_slice_remaining = TIME_SLICE := by
  rw [ProcessScheduler.schedule_priority] at h ⊢
  by_cases he : ((procs.filter fun e => e.2.state == ProcessState.Ready).map
      fun e => (e.1, e.2.priority)).isEmpty
  · rw [if_pos he] at h
    exact absurd h (by simp)
  · rw [if_neg he]
    exact choose_slice ..

theorem schedule_fcfs_slice (s : ProcessScheduler)
    (procs : List (Nat × ProcessControlBlock)) (p : Nat)
    (h : (s.schedule_fcfs procs).1 = some p) :
    (s.schedule_fcfs procs).2.time_slice_remaining = TIME_SLICE := by
  rw [ProcessScheduler.schedule_fcfs] at h ⊢
  by_cases he : ((procs.filter fun e => e.2.state == ProcessState.Ready).map
      fun e => (e.1, e.2.creation_time)).isEmpty
  · rw [if_pos he] at h
    exact absurd h (by simp)
  · rw [if_neg he]
    exact choose_slice ..

theorem schedule_sjf_slice (s : ProcessScheduler)
    (procs : List (Nat × ProcessControlBlock)) (p : Nat)
    (h : (s.schedule_sjf procs).1 = some p) :
    (s.schedule_sjf procs).2.time_slice_remaining = TIME_SLICE := by
  rw [ProcessScheduler.schedule_sjf] at h ⊢
  by_cases he : ((procs.filter fun e => e.2.state == ProcessState.Ready).map
      fun e => (e.1, e.2.memory_usage)).isEmpty
  · rw [if_pos he] at h
    exact absurd h (by simp)
  · rw [if_neg he]
    exact choose_slice ..

/-- Every policy resets the time slice on a successful selection. -/
theorem schedule_next_some_slice (s : ProcessScheduler)
    (procs : List (Nat × ProcessControlBlock)) (p : Nat)
    (h : (s.schedule_next procs).1 = some p) :
    (s.schedule_next procs).2.time_slice_remaining = TIME_SLICE := by
  rw [ProcessScheduler.schedule_next] at h ⊢
  cases halg : s.scheduling_algorithm
  case RoundRobin =>
    rw [halg] at h
    exact schedule_rr_slice s procs p h
  case Priority =>
    rw [halg] at h
    exact schedule_priority_slice s procs p h
  case FirstComeFirstServed =>
    rw [halg] at h
    exact schedule_fcfs_slice s procs p h
  case ShortestJobFirst =>
    rw [halg] at h
    exact schedule_sjf_slice s procs p h

/-! ### Concrete fixtures used by witnesses -/

/-- A minimal PCB with the given pid, state and priority. -/
def testPCB (p : Nat) (st : ProcessState) (pr : ProcessPriority) : ProcessControlBlock :=
  { pid := p, parent_pid := none, name := "p", state := st, priority := pr
    registers := CpuRegisters.default, stack_pointer := 0, stack_size := 0
    heap_start := 0, heap_size := 0, page_table := none, capabilities := []
    open_files := [], working_directory := "/", exit_code := none
    creation_time := 0, cpu_time := 0, memory_usage := 0 }

/-! ### Claim theorems -/

theorem tick_iterate_slice (t : ProcessScheduler) (k : Nat) :
    (ProcessScheduler.tick^[k] t).time_slice_remaining =
      t.time_slice_remaining - k := by
  induction k generalizing t with
  | zero => simp
  | succ n ihn =>
    rw [Function.iterate_succ_apply, ihn, ProcessScheduler.tick]
    by_cases h : t.time_slice_remaining > 0
    · rw [if_pos h]
      show t.time_slice_remaining - 1 - n = t.time_slice_remaining - (n + 1)
      omega
    · rw [if_neg h]
      omega

/-- C8: `tick` decrements the time-slice counter by one, never below zero;
`should_preempt` holds exactly when the counter is zero; every successful
`select_next` resets the counter to the fixed 100-tick slice; and after a
successful `select_next`, the k-th subsequent `tick` makes `should_preempt`
true exactly from the 100th tick on (so it is false after each of the first
99 ticks and true on the 100th). -/
theorem claim_c8_tick_preempt (s : ProcessScheduler)
    (procs : List (Nat × ProcessControlBlock)) (p : Nat)
    (hsel : (s.schedule_next procs).1 = some p) :
    (∀ t : ProcessScheduler,
      t.tick.time_slice_remaining = t.time_slice_remaining - 1) ∧
    (∀ t : ProcessScheduler,
      t.should_preempt = true ↔ t.time_slice_remaining = 0) ∧
    TIME_SLICE = 100 ∧
    (s.schedule_next procs).2.time_slice_remaining = TIME_SLICE ∧
    (∀ k : Nat,
      (ProcessScheduler.tick^[k] (s.schedule_next procs).2).should_preempt = true ↔
        100 ≤ k) := by
  refine ⟨?_, ?_, rfl, schedule_next_some_slice s procs p hsel, ?_⟩
  · intro t
    rw [ProcessScheduler.tick]
    by_cases h : t.time_slice_remaining > 0
    · rw [if_pos h]
    · rw [if_neg h]
      omega
  · intro t
    rw [ProcessScheduler.should_preempt]
    simp
  · intro k
    rw [ProcessScheduler.should_preempt]
    rw [tick_iterate_slice, schedule_next_some_slice s procs p hsel]
    simp [TIME_SLICE]
    omega

/-- C8 witness: from the fresh round-robin scheduler over a single Ready
process, the selection succeeds and the 100th tick triggers preemption. -/
theorem claim_c8_tick_preempt_witness :
    (ProcessScheduler.tick^[100]
      ((ProcessScheduler.new.schedule_next [(1, testPCB 1 .Ready .Normal)]).2)).should_preempt =
      true :=
  ((claim_c8_tick_preempt ProcessScheduler.new [(1, testPCB 1 .Ready .Normal)] 1
    (by decide)).2.2.2.2 100).mpr (by omega)

/-- C2 (amended): `handle_syscall` on any syscall number outside `0..=9`
returns `Error(InvalidSyscall)` regardless of the arguments and of the
service state; its `u64` encoding is exactly `2^63` — high bit set, low 63
bits equal to InvalidSyscall's fixed index 0 — while `Success(v)` encodes as
`v` itself, whose high bit is clear whenever `v < 2^63`. -/
theorem claim_c2_invalid_syscall (readName : Nat → Nat → String) (n : Nat)
    (args : SyscallArgs) (svc : ProcessService) (ctx : ContextManager)
    (hn : 10 ≤ n) :
    (handle_syscall readName n args svc ctx).1 = .Error .InvalidSyscall ∧
    (handle_syscall readName n args svc ctx).1.toU64 = 2 ^ 63 ∧
    Nat.testBit ((handle_syscall readName n args svc ctx).1.toU64) 63 = true ∧
    (handle_syscall readName n args svc ctx).1.toU64 % 2 ^ 63 =
      SyscallError.InvalidSyscall.code ∧
    (∀ v : Nat, v < 2 ^ 63 →
      (SyscallResult.Success v).toU64 = v ∧
      Nat.testBit ((SyscallResult.Success v).toU64) 63 = false) := by
  obtain ⟨m, rfl⟩ : ∃ m, n = m + 10 := ⟨n - 10, by omega⟩
  have hd : (handle_syscall readName (m + 10) args svc ctx).1 =
      .Error .InvalidSyscall := rfl
  refine ⟨hd, ?_, ?_, ?_, ?_⟩
  · rw [hd]
    decide
  · rw [hd]
    decide
  · rw [hd]
    decide
  · intro v hv
    exact ⟨rfl, Nat.testBit_lt_two_pow hv⟩

/-- C2 witness: syscall number 99 on the fresh service state. -/
theorem claim_c2_invalid_syscall_witness :
    (handle_syscall (fun _ _ => "x") 99 ⟨0, 0, 0, 0, 0, 0⟩ ProcessService.new
      ContextManager.new).1.toU64 = 2 ^ 63 :=
  (claim_c2_invalid_syscall (fun _ _ => "x") 99 ⟨0, 0, 0, 0, 0, 0⟩
    ProcessService.new ContextManager.new (by omega)).2.1

/-- C2 counterexample: the claim's clause "every `Success(v)` encodes as `v`
with the high bit clear" fails at `v = 2^63`: the encoding is `v` itself and
its high bit (bit 63) is set. -/
theorem claim_c2_counterexample :
    (SyscallResult.Success (2 ^ 63)).toU64 = 2 ^ 63 ∧
    Nat.testBit ((SyscallResult.Success (2 ^ 63)).toU64) 63 = true :=
  ⟨rfl, by decide⟩

/-- C4 (amended): in both registries, `create(name, priority, ss, hs)`
returns `Ok(pid)` with `pid` the pre-call `next_pid`, and the PCB stored
under that pid has state Ready, `memory_usage = (ss + hs) mod 2^64` (equal to
`ss + hs` whenever the sum fits in a `usize`), `exit_code = None`, and
`parent_pid` equal to the process that was current at the time of the call
(`None` if there was none). -/
theorem claim_c4_create_pcb (name : String) (priority : ProcessPriority)
    (ss hs : Nat) (st : ProcessManager) (svc : ProcessService) :
    (∃ pcb, mapLookup st.next_pid
        (st.create_process name priority ss hs).2.processes = some pcb ∧
      (st.create_process name priority ss hs).1 = .ok st.next_pid ∧
      pcb.state = .Ready ∧ pcb.memory_usage = (ss + hs) % u64Mod ∧
      pcb.exit_code = none ∧ pcb.parent_pid = st.current_process) ∧
    (∃ pcb, mapLookup svc.next_pid
        (svc.create_process name priority ss hs).2.processes = some pcb ∧
      (svc.create_process name priority ss hs).1 = .ok svc.next_pid ∧
      pcb.state = .Ready ∧ pcb.memory_usage = (ss + hs) % u64Mod ∧
      pcb.exit_code = none ∧ pcb.parent_pid = svc.current_process) := by
  constructor
  · exact ⟨_, mapLookup_mapInsert_self _ _ _, rfl, rfl, rfl, rfl, rfl⟩
  · exact ⟨_, mapLookup_mapInsert_self _ _ _, rfl, rfl, rfl, rfl, rfl⟩

/-- C4 counterexample: the claim's unqualified `memory_usage = ss + hs`
fails at `ss = hs = 2^63` — the stored `usize` wraps to 0 (release-mode
semantics), while `ss + hs = 2^64 ≠ 0`. -/
theorem claim_c4_counterexample :
    (mapLookup 1 ((ProcessManager.new.create_process "p" .Normal (2 ^ 63)
        (2 ^ 63)).2.processes)).map (fun pcb => pcb.memory_usage) = some 0 ∧
    2 ^ 63 + 2 ^ 63 ≠ 0 := by
  constructor
  · rfl
  · decide

theorem getD_zero_of_head {α : Type} (l : List α) (x d : α) (h : l.head? = some x) :
    l.getD 0 d = x := by
  cases l with
  | nil => simp at h
  | cons a rest =>
    simp at h
    simpa using h

/-- C7: under the Priority policy, `select_next` returns a Ready process of
numerically highest priority, and among Ready processes of that priority the
one with the smallest pid; it returns a pid whenever any process is Ready. -/
theorem claim_c7_priority (s : ProcessScheduler)
    (procs : List (Nat × ProcessControlBlock)) (hwf : MapWF procs)
    (halg : s.scheduling_algorithm = .Priority) :
    (∀ p, (s.schedule_next procs).1 = some p →
      ∃ pcb, mapLookup p procs = some pcb ∧ pcb.state = .Ready ∧
        ∀ e ∈ procs, e.2.state = .Ready →
          e.2.priority.toNat ≤ pcb.priority.toNat ∧
          (e.2.priority.toNat = pcb.priority.toNat → p ≤ e.1)) ∧
    ((∃ e ∈ procs, e.2.state = .Ready) → (s.schedule_next procs).1 ≠ none) := by
  have hsn : s.schedule_next procs = s.schedule_priority procs := by
    rw [ProcessScheduler.schedule_next, halg]
  rw [hsn]
  rw [ProcessScheduler.schedule_priority]
  by_cases he : ((procs.filter fun e => e.2.state == ProcessState.Ready).map
      fun e => (e.1, e.2.priority)).isEmpty
  · rw [if_pos he]
    constructor
    · intro p hp
      exact absurd hp (by simp)
    · rintro ⟨e, hmem, hst⟩
      have : e ∈ procs.filter fun e => e.2.state == ProcessState.Ready :=
        List.mem_filter.mpr ⟨hmem, by simp [hst]⟩
      have : (e.1, e.2.priority) ∈ (procs.filter fun e =>
          e.2.state == ProcessState.Ready).map fun e => (e.1, e.2.priority) :=
        List.mem_map.mpr ⟨e, this, rfl⟩
      rw [List.isEmpty_iff] at he
      rw [he] at this
      simp at this
  · rw [if_neg he]
    have hpw : ((procs.filter fun e => e.2.state == ProcessState.Ready).map
        fun e => (e.1, e.2.priority)).Pairwise fun a b => a.1 < b.1 := by
      refine List.Pairwise.map _ (fun a b h => h) ?_
      exact List.Pairwise.sublist (List.filter_sublist _) hwf
    have hne : (procs.filter fun e => e.2.state == ProcessState.Ready).map
        (fun e => (e.1, e.2.priority)) ≠ [] := by
      simpa [List.isEmpty_iff] using he
    constructor
    · intro p hp
      rw [choose_fst] at hp
      -- the selected pair is the head of the stable descending sort
      have hhead : (sortStable (fun a b : Nat × ProcessPriority =>
          b.2.toNat ≤ a.2.toNat) ((procs.filter fun e =>
            e.2.state == ProcessState.Ready).map fun e => (e.1, e.2.priority))).head? =
          firstMaxP ((procs.filter fun e => e.2.state == ProcessState.Ready).map
            fun e => (e.1, e.2.priority)) := head?_sortStable_prio _
      cases hfm : firstMaxP ((procs.filter fun e =>
          e.2.state == ProcessState.Ready).map fun e => (e.1, e.2.priority)) with
      | none =>
        exact absurd ((firstMaxP_eq_none _).mp hfm) hne
      | some mx =>
        rw [hfm] at hhead
        have hget := getD_zero_of_head _ mx ((0 : Nat), ProcessPriority.Low) hhead
        rw [hget] at hp
        have hpm := Option.some.inj hp
        obtain ⟨hmx, hbound, htie⟩ := firstMaxP_spec _ mx hpw hfm
        obtain ⟨pcb, hl, hst, hpr⟩ := pairs_fst_ready (fun pcb => pcb.priority)
          procs hwf mx hmx
        refine ⟨pcb, hpm ▸ hl, hst, ?_⟩
        intro e hmem hest
        have hepair : (e.1, e.2.priority) ∈ (procs.filter fun e =>
            e.2.state == ProcessState.Ready).map fun e => (e.1, e.2.priority) :=
          List.mem_map.mpr ⟨e, List.mem_filter.mpr ⟨hmem, by simp [hest]⟩, rfl⟩
        constructor
        · have := hbound _ hepair
          rw [hpr]
          exact this
        · intro heq
          rw [hpr] at heq
          have := htie _ hepair heq
          omega
    · intro _
      rw [choose_fst]
      simp

/-- C6: `terminate(pid, code)` on a present pid returns Ok, sets the PCB's
state to Terminated and its exit code to `Some(code)`, clears the
current-process marker iff the pid was current, and leaves everything
unchanged on an absent pid (returning ProcessNotFound) — in both the
`ProcessManager` and the `ProcessService` registries; moreover a pid whose
PCB is Terminated is never returned by `select_next` under any of the four
scheduling policies. -/
theorem claim_c6_terminate :
    (∀ (st : ProcessManager) (pid : Nat) (code : Int)
      (pcb : ProcessControlBlock), mapLookup pid st.processes = some pcb →
      (st.terminate_process pid code).1 = .ok () ∧
      mapLookup pid (st.terminate_process pid code).2.processes =
        some { pcb with state := .Terminated, exit_code := some code } ∧
      (st.current_process = some pid →
        (st.terminate_process pid code).2.current_process = none) ∧
      (st.current_process ≠ some pid →
        (st.terminate_process pid code).2.current_process = st.current_process)) ∧
    (∀ (st : ProcessManager) (pid : Nat) (code : Int),
      mapLookup pid st.processes = none →
      st.terminate_process pid code = (.error .ProcessNotFound, st)) ∧
    (∀ (svc : ProcessService) (pid : Nat) (code : Int)
      (pcb : ProcessControlBlock), mapLookup pid svc.processes = some pcb →
      (svc.terminate_process pid code).1 = .ok () ∧
      mapLookup pid (svc.terminate_process pid code).2.processes =
        some { pcb with state := .Terminated, exit_code := some code } ∧
      (svc.current_process = some pid →
        (svc.terminate_process pid code).2.current_process = none) ∧
      (svc.current_process ≠ some pid →
        (svc.terminate_process pid code).2.current_process = svc.current_process)) ∧
    (∀ (svc : ProcessService) (pid : Nat) (code : Int),
      mapLookup pid svc.processes = none →
      svc.terminate_process pid code = (.error .ProcessNotFound, svc)) ∧
    (∀ (s : ProcessScheduler) (procs : List (Nat × ProcessControlBlock))
      (pid : Nat) (pcb : ProcessControlBlock), MapWF procs →
      mapLookup pid procs = some pcb → pcb.state = .Terminated →
      (s.schedule_next procs).1 ≠ some pid) := by
  refine ⟨?_, ?_, ?_, ?_, ?_⟩
  · intro st pid code pcb h
    refine ⟨?_, ?_, ?_, ?_⟩
    · simp only [ProcessManager.terminate_process, h]
    · simp only [ProcessManager.terminate_process, h]
      rw [mapLookup_mapUpdate_self, h]
      rfl
    · intro hc
      simp only [ProcessManager.terminate_process, h, if_pos hc]
    · intro hc
      simp only [ProcessManager.terminate_process, h, if_neg hc]
  · intro st pid code h
    simp only [ProcessManager.terminate_process, h]
  · intro svc pid code pcb h
    refine ⟨?_, ?_, ?_, ?_⟩
    · simp only [ProcessService.terminate_process, h]
    · simp only [ProcessService.terminate_process, h]
      rw [mapLookup_mapUpdate_self, h]
      rfl
    · intro hc
      simp only [ProcessService.terminate_process, h, if_pos hc]
    · intro hc
      simp only [ProcessService.terminate_process, h, if_neg hc]
  · intro svc pid code h
    simp only [ProcessService.terminate_process, h]
  · intro s procs pid pcb hwf hl hterm hsel
    obtain ⟨pcb', hl', hr⟩ := schedule_next_some_mem s procs hwf pid hsel
    rw [hl] at hl'
    have hpp : pcb = pcb' := Option.some.inj hl'
    rw [← hpp, hterm] at hr
    exact absurd hr (by decide)

/-- A priority-policy scheduler in its initial state. -/
def prioSchedW : ProcessScheduler :=
  { current_process := none, time_slice_remaining := TIME_SLICE
    total_switches := 0, scheduling_algorithm := .Priority }

/-- Three Ready processes: pid 1 Normal, pids 2 and 3 Critical. -/
def prioProcsW : List (Nat × ProcessControlBlock) :=
  [(1, testPCB 1 .Ready .Normal), (2, testPCB 2 .Ready .Critical),
   (3, testPCB 3 .Ready .Critical)]

/-- C7 witness: over {(1, Normal), (2, Critical), (3, Critical)} the Priority
policy selects pid 2 — the lower pid among the Critical tie. -/
theorem claim_c7_priority_witness :
    (prioSchedW.schedule_next prioProcsW).1 = some 2 ∧
    (∃ pcb, mapLookup 2 prioProcsW = some pcb ∧ pcb.state = .Ready ∧
      ∀ e ∈ prioProcsW, e.2.state = .Ready →
        e.2.priority.toNat ≤ pcb.priority.toNat ∧
        (e.2.priority.toNat = pcb.priority.toNat → 2 ≤ e.1)) :=
  ⟨by decide,
   (claim_c7_priority prioSchedW prioProcsW
      (show prioProcsW.Pairwise (fun a b => a.1 < b.1) by decide) rfl).1 2
      (by decide)⟩

/-- A one-process `ProcessManager` registry (pid 1 Ready, current). -/
def pmW : ProcessManager :=
  { next_pid := 2, processes := [(1, testPCB 1 .Ready .Normal)]
    current_process := some 1, ready_queue := [1], blocked_queue := [] }

/-- A one-process `ProcessService` registry (pid 1 Ready, current). -/
def svcW : ProcessService :=
  { processes := [(1, testPCB 1 .Ready .Normal)], current_process := some 1
    next_pid := 2 }

/-- C6 witness: terminating pid 1 in the concrete registries succeeds, an
absent pid gives ProcessNotFound with the state unchanged, and a Terminated
pid is not selected by the fresh round-robin scheduler. -/
theorem claim_c6_terminate_witness :
    (pmW.terminate_process 1 5).1 = .ok () ∧
    ProcessManager.new.terminate_process 1 5 =
      (.error .ProcessNotFound, ProcessManager.new) ∧
    (svcW.terminate_process 1 5).1 = .ok () ∧
    ProcessService.new.terminate_process 1 5 =
      (.error .ProcessNotFound, ProcessService.new) ∧
    (ProcessScheduler.new.schedule_next
      [(1, testPCB 1 .Terminated .Normal)]).1 ≠ some 1 :=
  ⟨(claim_c6_terminate.1 pmW 1 5 (testPCB 1 .Ready .Normal) (by decide)).1,
   claim_c6_terminate.2.1 ProcessManager.new 1 5 (by decide),
   (claim_c6_terminate.2.2.1 svcW 1 5 (testPCB 1 .Ready .Normal) (by decide)).1,
   claim_c6_terminate.2.2.2.1 ProcessService.new 1 5 (by decide),
   claim_c6_terminate.2.2.2.2 ProcessScheduler.new
     [(1, testPCB 1 .Terminated .Normal)] 1 (testPCB 1 .Terminated .Normal)
     (show List.Pairwise _ _ by decide) (by decide) (by decide)⟩

/-- `context_switch` copies registers around but never changes any PCB's
state field. -/
theorem context_switch_state_frame (ctx : ContextManager) (from_pid : Option Nat)
    (to_pid : Nat) (procs : List (Nat × ProcessControlBlock)) (c : Nat) :
    (mapLookup c (ContextManager.context_switch ctx from_pid to_pid procs).2.2).map
        (·.state) = (mapLookup c procs).map (·.state) := by
  cases from_pid with
  | none =>
    rw [ContextManager.context_switch]
    cases hres : ctx.restore_context to_pid procs with
    | mk r ctx' => cases r <;> simp [hres]
  | some pid =>
    rw [ContextManager.context_switch]
    cases hl : mapLookup pid procs with
    | none =>
      simp only [ContextManager.save_context, hl]
    | some pcb =>
      simp only [ContextManager.save_context, hl]
      cases hres : ctx.restore_context to_pid
          (mapUpdate pid (fun pcb =>
            { pcb with registers := ctx.get_current_registers }) procs) with
      | mk r ctx' =>
        cases r <;> simp [hres] <;>
          exact mapLookup_state_mapUpdate pid c
            (fun pcb => { pcb with registers := ctx.get_current_registers })
            (fun p => rfl) procs

/-- C10: when `schedule_next` has a current process `c` and selects a
different process `p`, the state field of `c`'s PCB is unchanged — in
particular a preempted Running process is not transitioned back to Ready and
thus remains ineligible for later round-robin selection. -/
theorem claim_c10_schedule_frame (svc : ProcessService) (ctx : ContextManager)
    (c p : Nat) (hcur : svc.current_process = some c) (hne : p ≠ c)
    (hsel : (svc.schedule_next ctx).1 = some p) :
    (mapLookup c (svc.schedule_next ctx).2.1.processes).map (·.state) =
      (mapLookup c svc.processes).map (·.state) := by
  rw [ProcessService.schedule_next] at hsel ⊢
  by_cases he : (readyPids svc.processes).isEmpty
  · rw [if_pos he] at hsel
    exact absurd hsel (by simp)
  · rw [if_neg he] at hsel ⊢
    cases hcs : ContextManager.context_switch ctx svc.current_process
        (rrSelect svc.current_process (readyPids svc.processes))
        (mapUpdate (rrSelect svc.current_process (readyPids svc.processes))
          (fun pcb => { pcb with state := ProcessState.Running })
          svc.processes) with
    | mk r rest =>
      obtain ⟨ctx', procs'⟩ := rest
      rw [hcs] at hsel
      cases r with
      | error e => simp at hsel
      | ok u =>
        have hp : rrSelect svc.current_process (readyPids svc.processes) = p := by
          simpa using hsel
        have hframe := context_switch_state_frame ctx svc.current_process
          (rrSelect svc.current_process (readyPids svc.processes))
          (mapUpdate (rrSelect svc.current_process (readyPids svc.processes))
            (fun pcb => { pcb with state := ProcessState.Running })
            svc.processes) c
        rw [hcs] at hframe
        have h2 : (mapLookup c procs').map (·.state) =
            (mapLookup c (mapUpdate (rrSelect svc.current_process
              (readyPids svc.processes)) (fun pcb =>
                { pcb with state := ProcessState.Running })
              svc.processes)).map (·.state) := hframe
        have h3 : (mapLookup c procs').map (·.state) =
            (mapLookup c svc.processes).map (·.state) := by
          rw [h2, mapLookup_mapUpdate_ne _ _ (by rw [hp]; exact hne.symm)]
        exact h3

/-- The service state after booting (kernel pid 0 Running, current) and
creating one Ready process (pid 1). -/
def svcW10 : ProcessService :=
  (ProcessService.new.init.create_process "p" .Normal 0 0).2

/-- C10 witness: scheduling away from the kernel process (pid 0) to pid 1
leaves pid 0's state untouched. -/
theorem claim_c10_schedule_frame_witness :
    (mapLookup 0 (svcW10.schedule_next ContextManager.new).2.1.processes).map
        (·.state) = (mapLookup 0 svcW10.processes).map (·.state) :=
  claim_c10_schedule_frame svcW10 ContextManager.new 0 1 (by decide)
    (by decide) (by decide)

/-! ### pid-issuing lemmas for C3 -/

theorem pm_next_terminate (st : ProcessManager) (pid : Nat) (c : Int) :
    ((PMOp.terminate pid c).step st).next_pid = st.next_pid := by
  show (st.terminate_process pid c).2.next_pid = st.next_pid
  rw [ProcessManager.terminate_process]
  cases mapLookup pid st.processes <;> rfl

theorem pm_next_blockCurrent (st : ProcessManager) :
    (PMOp.blockCurrent.step st).next_pid = st.next_pid := by
  show st.block_current_process.2.next_pid = st.next_pid
  rw [ProcessManager.block_current_process]
  split <;> first | rfl | (split <;> rfl)

theorem pm_next_unblock (st : ProcessManager) (pid : Nat) :
    ((PMOp.unblock pid).step st).next_pid = st.next_pid := by
  show (st.unblock_process pid).2.next_pid = st.next_pid
  rw [ProcessManager.unblock_process]
  split <;> first | rfl | (split <;> rfl)

theorem pm_next_switchTo (st : ProcessManager) (pid : Nat) :
    ((PMOp.switchTo pid).step st).next_pid = st.next_pid := by
  show (st.switch_to_process pid).2.next_pid = st.next_pid
  rw [ProcessManager.switch_to_process]
  cases mapLookup pid st.processes <;> rfl

theorem pm_next_getNext (st : ProcessManager) :
    (PMOp.getNext.step st).next_pid = st.next_pid := by
  show st.get_next_process.2.next_pid = st.next_pid
  rw [ProcessManager.get_next_process]
  cases st.ready_queue <;> rfl

theorem pmIssued_eq (ops : List PMOp) (st : ProcessManager)
    (hst : st.next_pid < u64Mod) :
    pmIssued ops st = (List.range (pmCreateCount ops)).map
      fun i => (st.next_pid + i) % u64Mod := by
  induction ops generalizing st with
  | nil => simp [pmIssued, pmCreateCount]
  | cons op rest ih =>
    cases op with
    | create n p ss hs =>
      show st.next_pid :: pmIssued rest (st.create_process n p ss hs).2 =
        (List.range (pmCreateCount rest + 1)).map
          fun i => (st.next_pid + i) % u64Mod
      have hlt : ((st.create_process n p ss hs).2).next_pid < u64Mod := by
        show (st.next_pid + 1) % u64Mod < u64Mod
        exact Nat.mod_lt _ (by decide)
      rw [ih _ hlt, List.range_succ_eq_map, List.map_cons, List.map_map]
      congr 1
      · rw [Nat.add_zero, Nat.mod_eq_of_lt hst]
      · apply List.map_congr_left
        intro i _
        show ((st.next_pid + 1) % u64Mod + i) % u64Mod =
          (st.next_pid + Nat.succ i) % u64Mod
        rw [Nat.mod_add_mod]
        congr 1
        omega
    | terminate pid c =>
      show pmIssued rest ((PMOp.terminate pid c).step st) =
        (List.range (pmCreateCount rest)).map fun i => (st.next_pid + i) % u64Mod
      rw [ih _ (by rw [pm_next_terminate]; exact hst), pm_next_terminate]
    | blockCurrent =>
      show pmIssued rest (PMOp.blockCurrent.step st) =
        (List.range (pmCreateCount rest)).map fun i => (st.next_pid + i) % u64Mod
      rw [ih _ (by rw [pm_next_blockCurrent]; exact hst), pm_next_blockCurrent]
    | unblock pid =>
      show pmIssued rest ((PMOp.unblock pid).step st) =
        (List.range (pmCreateCount rest)).map fun i => (st.next_pid + i) % u64Mod
      rw [ih _ (by rw [pm_next_unblock]; exact hst), pm_next_unblock]
    | switchTo pid =>
      show pmIssued rest ((PMOp.switchTo pid).step st) =
        (List.range (pmCreateCount rest)).map fun i => (st.next_pid + i) % u64Mod
      rw [ih _ (by rw [pm_next_switchTo]; exact hst), pm_next_switchTo]
    | getNext =>
      show pmIssued rest (PMOp.getNext.step st) =
        (List.range (pmCreateCount rest)).map fun i => (st.next_pid + i) % u64Mod
      rw [ih _ (by rw [pm_next_getNext]; exact hst), pm_next_getNext]

theorem ps_next_init (svc : ProcessService) : svc.init.next_pid = svc.next_pid := rfl

theorem ps_next_terminate (svc : ProcessService) (pid : Nat) (c : Int) :
    (svc.terminate_process pid c).2.next_pid = svc.next_pid := by
  rw [ProcessService.terminate_process]
  cases mapLookup pid svc.processes <;> rfl

theorem ps_next_blockCurrent (svc : ProcessService) :
    svc.block_current_process.2.next_pid = svc.next_pid := by
  rw [ProcessService.block_current_process]
  split <;> first | rfl | (split <;> rfl)

theorem ps_next_unblock (svc : ProcessService) (pid : Nat) :
    (svc.unblock_process pid).2.next_pid = svc.next_pid := by
  rw [ProcessService.unblock_process]
  split <;> first | rfl | (split <;> rfl)

theorem ps_next_schedule (svc : ProcessService) (ctx : ContextManager) :
    (svc.schedule_next ctx).2.1.next_pid = svc.next_pid := by
  rw [ProcessService.schedule_next]
  by_cases he : (readyPids svc.processes).isEmpty
  · rw [if_pos he]
  · rw [if_neg he]
    cases hcs : ContextManager.context_switch ctx svc.current_process
        (rrSelect svc.current_process (readyPids svc.processes))
        (mapUpdate (rrSelect svc.current_process (readyPids svc.processes))
          (fun pcb => { pcb with state := ProcessState.Running })
          svc.processes) with
    | mk r rest =>
      obtain ⟨ctx', procs'⟩ := rest
      cases r <;> rfl

theorem psIssued_eq (ops : List PSOp) (s : ProcessService × ContextManager)
    (hst : s.1.next_pid < u64Mod) :
    psIssued ops s = (List.range (psCreateCount ops)).map
      fun i => (s.1.next_pid + i) % u64Mod := by
  induction ops generalizing s with
  | nil => simp [psIssued, psCreateCount]
  | cons op rest ih =>
    obtain ⟨svc, ctx⟩ := s
    cases op with
    | create n p ss hs =>
      show svc.next_pid ::
          psIssued rest ((svc.create_process n p ss hs).2, ctx) =
        (List.range (psCreateCount rest + 1)).map
          fun i => (svc.next_pid + i) % u64Mod
      have hlt : ((svc.create_process n p ss hs).2, ctx).1.next_pid < u64Mod := by
        show (svc.next_pid + 1) % u64Mod < u64Mod
        exact Nat.mod_lt _ (by decide)
      rw [ih _ hlt, List.range_succ_eq_map, List.map_cons, List.map_map]
      congr 1
      · rw [Nat.add_zero, Nat.mod_eq_of_lt hst]
      · apply List.map_congr_left
        intro i _
        show ((svc.next_pid + 1) % u64Mod + i) % u64Mod =
          (svc.next_pid + Nat.succ i) % u64Mod
        rw [Nat.mod_add_mod]
        congr 1
        omega
    | init =>
      show psIssued rest (svc.init, ctx) =
        (List.range (psCreateCount rest)).map fun i => (svc.next_pid + i) % u64Mod
      rw [ih (svc.init, ctx) (by rw [ps_next_init]; exact hst)]
      rw [show (svc.init, ctx).1.next_pid = svc.next_pid from ps_next_init svc]
    | terminate pid c =>
      show psIssued rest ((svc.terminate_process pid c).2, ctx) =
        (List.range (psCreateCount rest)).map fun i => (svc.next_pid + i) % u64Mod
      rw [ih _ (by rw [ps_next_terminate]; exact hst)]
      rw [show ((svc.terminate_process pid c).2, ctx).1.next_pid = svc.next_pid from
        ps_next_terminate svc pid c]
    | blockCurrent =>
      show psIssued rest (svc.block_current_process.2, ctx) =
        (List.range (psCreateCount rest)).map fun i => (svc.next_pid + i) % u64Mod
      rw [ih _ (by rw [ps_next_blockCurrent]; exact hst)]
      rw [show (svc.block_current_process.2, ctx).1.next_pid = svc.next_pid from
        ps_next_blockCurrent svc]
    | unblock pid =>
      show psIssued rest ((svc.unblock_process pid).2, ctx) =
        (List.range (psCreateCount rest)).map fun i => (svc.next_pid + i) % u64Mod
      rw [ih _ (by rw [ps_next_unblock]; exact hst)]
      rw [show ((svc.unblock_process pid).2, ctx).1.next_pid = svc.next_pid from
        ps_next_unblock svc pid]
    | scheduleNext =>
      show psIssued rest
          (match svc.schedule_next ctx with | (_, svc', ctx') => (svc', ctx')) =
        (List.range (psCreateCount rest)).map fun i => (svc.next_pid + i) % u64Mod
      cases hsn : svc.schedule_next ctx with
      | mk o rest2 =>
        obtain ⟨svc', ctx'⟩ := rest2
        have hnext : svc'.next_pid = svc.next_pid := by
          have := ps_next_schedule svc ctx
          rw [hsn] at this
          exact this
        show psIssued rest (svc', ctx') =
          (List.range (psCreateCount rest)).map fun i => (svc.next_pid + i) % u64Mod
        rw [ih (svc', ctx') (by show svc'.next_pid < u64Mod; rw [hnext]; exact hst)]
        rw [show (svc', ctx').1.next_pid = svc.next_pid from hnext]

/-- C3: starting from the initial registry, for every sequence of public
operations containing fewer than `2^64` creates, the pids issued by the
`create` operations are pairwise strictly increasing (in order of issue),
never repeat, are all ≥ 1 (pid 0 stays reserved for the kernel process), and
start at 1 — in both the `ProcessManager` and the `ProcessService`
registries. -/
theorem claim_c3_pid_monotone (opsPM : List PMOp) (opsPS : List PSOp)
    (hPM : pmCreateCount opsPM < u64Mod) (hPS : psCreateCount opsPS < u64Mod) :
    ((pmIssued opsPM ProcessManager.new).Pairwise (· < ·) ∧
     (pmIssued opsPM ProcessManager.new).Nodup ∧
     (∀ q ∈ pmIssued opsPM ProcessManager.new, 1 ≤ q) ∧
     (0 < pmCreateCount opsPM →
       (pmIssued opsPM ProcessManager.new).head? = some 1)) ∧
    ((psIssued opsPS (ProcessService.new, ContextManager.new)).Pairwise (· < ·) ∧
     (psIssued opsPS (ProcessService.new, ContextManager.new)).Nodup ∧
     (∀ q ∈ psIssued opsPS (ProcessService.new, ContextManager.new), 1 ≤ q) ∧
     (0 < psCreateCount opsPS →
       (psIssued opsPS (ProcessService.new, ContextManager.new)).head? = some 1)) := by
  have hm : ∀ (cnt : Nat), cnt < u64Mod →
      ∀ (l : List Nat), l = (List.range cnt).map (fun i => (1 + i) % u64Mod) →
      l.Pairwise (· < ·) ∧ l.Nodup ∧ (∀ q ∈ l, 1 ≤ q) ∧
        (0 < cnt → l.head? = some 1) := by
    intro cnt hcnt l hl
    have hl' : l = (List.range cnt).map (fun i => 1 + i) := by
      rw [hl]
      apply List.map_congr_left
      intro i hi
      have : i < cnt := List.mem_range.mp hi
      exact Nat.mod_eq_of_lt (by omega)
    subst hl'
    refine ⟨?_, ?_, ?_, ?_⟩
    · exact (List.pairwise_lt_range cnt).map _ (fun a b h => by omega)
    · exact ((List.pairwise_lt_range cnt).map _ (fun a b h => by omega)).imp
        (fun {a b} h => Nat.ne_of_lt h)
    · intro q hq
      obtain ⟨i, _, hiq⟩ := List.mem_map.mp hq
      omega
    · intro hpos
      cases cnt with
      | zero => omega
      | succ k =>
        rw [List.range_succ_eq_map]
        rfl
  constructor
  · exact hm _ hPM _ (pmIssued_eq opsPM ProcessManager.new (by decide))
  · exact hm _ hPS _ (psIssued_eq opsPS (ProcessService.new, ContextManager.new)
      (by decide))

/-- C3 witness: two creates (with a terminate interleaved) issue pids 1, 2 in
both registries. -/
theorem claim_c3_pid_monotone_witness :
    (pmIssued [.create "a" .Normal 1 1, .terminate 1 0, .create "b" .Low 2 2]
      ProcessManager.new).head? = some 1 ∧
    (psIssued [.init, .create "a" .Normal 1 1, .create "b" .Low 2 2]
      (ProcessService.new, ContextManager.new)).head? = some 1 :=
  ⟨(claim_c3_pid_monotone
      [.create "a" .Normal 1 1, .terminate 1 0, .create "b" .Low 2 2]
      [.init, .create "a" .Normal 1 1, .create "b" .Low 2 2]
      (by decide) (by decide)).1.2.2.2 (by decide),
   (claim_c3_pid_monotone
      [.create "a" .Normal 1 1, .terminate 1 0, .create "b" .Low 2 2]
      [.init, .create "a" .Normal 1 1, .create "b" .Low 2 2]
      (by decide) (by decide)).2.2.2.2 (by decide)⟩

/-! ### C5: placement of stack and heap regions -/

theorem sub64_eq (a b : Nat) (hb : b ≤ a) (ha : a < u64Mod) :
    sub64 a b = a - b := by
  rw [sub64, Nat.mod_eq_of_lt ha, Nat.mod_eq_of_lt (Nat.lt_of_le_of_lt hb ha)]
  have h1 : a + (u64Mod - b) = u64Mod + (a - b) := by
    have : 0 < u64Mod := by decide
    omega
  rw [h1, Nat.add_mod_left, Nat.mod_eq_of_lt (by omega)]

/-- C5 (amended): in the `ProcessService` registry the stack pointer and heap
base are deterministic functions of the pid and the creation arguments
(`0x7FFF_FFFF_F000 - pid*stack_size` and `0x1000_0000 + pid*heap_size`), and
for two processes created with the *same* stack and heap sizes (with the
address arithmetic in range) the stack regions `[sp - ss, sp)` and the heap
regions `[heap_start, heap_start + hs)` of distinct pids do not overlap.
(The claim's unrestricted non-overlap is false: the `ProcessManager` registry
assigns identical fixed addresses to every process, and even in
`ProcessService` processes created with different heap sizes can collide —
see the counterexample.) -/
theorem claim_c5_regions (svc1 svc2 : ProcessService) (n1 n2 : String)
    (pr1 pr2 : ProcessPriority) (ss hs : Nat)
    (hp : svc1.next_pid ≠ svc2.next_pid)
    (hs1 : svc1.next_pid * ss + ss ≤ 0x7FFFFFFFF000)
    (hs2 : svc2.next_pid * ss + ss ≤ 0x7FFFFFFFF000)
    (hh1 : 0x10000000 + svc1.next_pid * hs + hs < u64Mod)
    (hh2 : 0x10000000 + svc2.next_pid * hs + hs < u64Mod) :
    ((mapLookup svc1.next_pid
        (svc1.create_process n1 pr1 ss hs).2.processes).map (·.stack_pointer) =
      some (0x7FFFFFFFF000 - svc1.next_pid * ss)) ∧
    ((mapLookup svc2.next_pid
        (svc2.create_process n2 pr2 ss hs).2.processes).map (·.stack_pointer) =
      some (0x7FFFFFFFF000 - svc2.next_pid * ss)) ∧
    ((mapLookup svc1.next_pid
        (svc1.create_process n1 pr1 ss hs).2.processes).map (·.heap_start) =
      some (0x10000000 + svc1.next_pid * hs)) ∧
    ((mapLookup svc2.next_pid
        (svc2.create_process n2 pr2 ss hs).2.processes).map (·.heap_start) =
      some (0x10000000 + svc2.next_pid * hs)) ∧
    (0x7FFFFFFFF000 - svc1.next_pid * ss ≤
        (0x7FFFFFFFF000 - svc2.next_pid * ss) - ss ∨
     0x7FFFFFFFF000 - svc2.next_pid * ss ≤
        (0x7FFFFFFFF000 - svc1.next_pid * ss) - ss) ∧
    ((0x10000000 + svc1.next_pid * hs) + hs ≤ 0x10000000 + svc2.next_pid * hs ∨
     (0x10000000 + svc2.next_pid * hs) + hs ≤ 0x10000000 + svc1.next_pid * hs) := by
  have e1 : (svc1.next_pid * ss) % u64Mod = svc1.next_pid * ss :=
    Nat.mod_eq_of_lt (Nat.lt_of_le_of_lt (by omega) (by decide :
      (0x7FFFFFFFF000 : Nat) < u64Mod))
  have e2 : (svc2.next_pid * ss) % u64Mod = svc2.next_pid * ss :=
    Nat.mod_eq_of_lt (Nat.lt_of_le_of_lt (by omega) (by decide :
      (0x7FFFFFFFF000 : Nat) < u64Mod))
  refine ⟨?_, ?_, ?_, ?_, ?_, ?_⟩
  · simp only [ProcessService.create_process, mapLookup_mapInsert_self,
      Option.map_some']
    rw [e1, sub64_eq _ _ (by omega) (by decide)]
  · simp only [ProcessService.create_process, mapLookup_mapInsert_self,
      Option.map_some']
    rw [e2, sub64_eq _ _ (by omega) (by decide)]
  · simp only [ProcessService.create_process, mapLookup_mapInsert_self,
      Option.map_some']
    rw [Nat.mod_eq_of_lt (by omega)]
  · simp only [ProcessService.create_process, mapLookup_mapInsert_self,
      Option.map_some']
    rw [Nat.mod_eq_of_lt (by omega)]
  · rcases Nat.lt_or_ge svc1.next_pid svc2.next_pid with hlt | hge
    · right
      have hmul := Nat.mul_le_mul_right ss
        (show svc1.next_pid + 1 ≤ svc2.next_pid by omega)
      rw [Nat.succ_mul] at hmul
      omega
    · left
      have hlt2 : svc2.next_pid < svc1.next_pid := by omega
      have hmul := Nat.mul_le_mul_right ss
        (show svc2.next_pid + 1 ≤ svc1.next_pid by omega)
      rw [Nat.succ_mul] at hmul
      omega
  · rcases Nat.lt_or_ge svc1.next_pid svc2.next_pid with hlt | hge
    · left
      have hmul := Nat.mul_le_mul_right hs
        (show svc1.next_pid + 1 ≤ svc2.next_pid by omega)
      rw [Nat.succ_mul] at hmul
      omega
    · right
      have hlt2 : svc2.next_pid < svc1.next_pid := by omega
      have hmul := Nat.mul_le_mul_right hs
        (show svc2.next_pid + 1 ≤ svc1.next_pid by omega)
      rw [Nat.succ_mul] at hmul
      omega

/-- C5 counterexample: in `ProcessService`, creating pid 1 with heap size
0x2000 and then pid 2 with heap size 0x1000 yields the *same* heap base
0x10002000 for both (regions `[0x10002000, 0x10004000)` and
`[0x10002000, 0x10003000)` overlap); and in `ProcessManager` every process
receives the identical fixed stack pointer 0x7FFF_FFFF_F000.  So the claimed
unconditional non-overlap across distinct pids is false. -/
theorem claim_c5_counterexample :
    ((mapLookup 1 ((ProcessService.new.create_process "a" .Normal 0x1000
        0x2000).2.create_process "b" .Normal 0x1000 0x1000).2.processes).map
      (fun pcb => (pcb.heap_start, pcb.heap_size)) = some (0x10002000, 0x2000)) ∧
    ((mapLookup 2 ((ProcessService.new.create_process "a" .Normal 0x1000
        0x2000).2.create_process "b" .Normal 0x1000 0x1000).2.processes).map
      (fun pcb => (pcb.heap_start, pcb.heap_size)) = some (0x10002000, 0x1000)) ∧
    ¬(0x10002000 + 0x2000 ≤ 0x10002000 ∨ 0x10002000 + 0x1000 ≤ 0x10002000) ∧
    ((mapLookup 1 ((ProcessManager.new.create_process "a" .Normal 1
        1).2.create_process "b" .Normal 1 1).2.processes).map
      (·.stack_pointer) = some 0x7FFFFFFFF000) ∧
    ((mapLookup 2 ((ProcessManager.new.create_process "a" .Normal 1
        1).2.create_process "b" .Normal 1 1).2.processes).map
      (·.stack_pointer) = some 0x7FFFFFFFF000) := by
  refine ⟨by decide, by decide, by decide, by decide, by decide⟩

/-- The fresh service (next pid 1). -/
def svcC5a : ProcessService := ProcessService.new

/-- The service after one create (next pid 2). -/
def svcC5b : ProcessService :=
  (ProcessService.new.create_process "a" .Normal 0x1000 0x1000).2

/-- C5 witness: equal sizes 0x1000 for pids 1 and 2 give disjoint heap
regions. -/
theorem claim_c5_regions_witness :
    (0x10000000 + svcC5a.next_pid * 0x1000) + 0x1000 ≤
        0x10000000 + svcC5b.next_pid * 0x1000 ∨
    (0x10000000 + svcC5b.next_pid * 0x1000) + 0x1000 ≤
        0x10000000 + svcC5a.next_pid * 0x1000 :=
  (claim_c5_regions svcC5a svcC5b "x" "y" .Normal .Normal 0x1000 0x1000
    (by decide) (by decide) (by decide) (by decide) (by decide)).2.2.2.2.2

/-- C9 (failing input): from the fresh registry, `create` (pid 1), then
`terminate(1, 42)`, then `switch_to(1)` leaves pid 1's PCB with state Running
while `exit_code = Some(42)` — `switch_to_process` resurrects a Terminated
PCB without clearing its exit code, violating the state/exit-code
consistency invariant. -/
theorem claim_c9_invariant_violated :
    (mapLookup 1 (runPM [.create "a" .Normal 0 0, .terminate 1 42, .switchTo 1]
        ProcessManager.new).processes).map
      (fun pcb => (pcb.state, pcb.exit_code)) = some (.Running, some 42) ∧
    ProcessState.Running ≠ ProcessState.Terminated := by
  exact ⟨by decide, by decide⟩

/-- C1 (what the entry routine actually does): for every trap with at least
the 17 stack slots of headroom, the dispatcher receives the saved syscall
number and arguments `(rax, rdi, rsi, rdx, r10, r8, r9)`, but its return
value ends up in the *rbx* register after the trap returns — the
`mov [rsp+8], rax` write-back happens after both `add rsp, 8` adjustments, so
it lands in the saved-rbx slot, not the saved-rax slot — while `rax` itself
is restored to its pre-trap value (the syscall number) and every other
register is restored unchanged. -/
theorem writeMem_read_ne (m : Nat → Nat) (a v x : Nat) (h : x ≠ a) :
    writeMem m a v x = m x := by
  rw [writeMem, if_neg h]

theorem writeMem_read_eq (m : Nat → Nat) (a v x : Nat) (h : x = a) :
    writeMem m a v x = v := by
  rw [writeMem, if_pos h]

theorem clobberBelow_read_high (scratch m : Nat → Nat) (bound x : Nat)
    (h : bound < x) : clobberBelow scratch m bound x = m x := by
  rw [clobberBelow]
  simp only [if_neg (by omega : ¬ x ≤ bound)]

set_option maxRecDepth 8192 in
set_option maxHeartbeats 1600000 in
/-- C1 (what the entry routine actually does): for every trap with the 17
stack slots of headroom, the dispatcher receives the saved syscall number and
arguments `(rax, rdi, rsi, rdx, r10, r8, r9)`, but its return value ends up
in the *rbx* register after the trap returns — the `mov [rsp+8], rax`
write-back happens after both `add rsp, 8` adjustments, so it lands in the
saved-rbx slot, not the saved-rax slot — while `rax` itself is restored to
its pre-trap value (the syscall number) and every other register is restored
unchanged.  The claimed behaviour (result in rax, rbx preserved) is
therefore false whenever the dispatcher result differs from the syscall
number / from the caller's rbx. -/
theorem claim_c1_syscall_entry
    (dispatch : Nat → Nat → Nat → Nat → Nat → Nat → Nat → Nat)
    (scratch : Nat → Nat) (s0 : Mach) (hsp : 160 ≤ s0.rsp) :
    (syscall_entry dispatch scratch s0).regs.rax = s0.regs.rax ∧
    (syscall_entry dispatch scratch s0).regs.rbx =
      dispatch s0.regs.rax s0.regs.rdi s0.regs.rsi s0.regs.rdx s0.regs.r10
        s0.regs.r8 s0.regs.r9 ∧
    (syscall_entry dispatch scratch s0).regs.rcx = s0.regs.rcx ∧
    (syscall_entry dispatch scratch s0).regs.rdx = s0.regs.rdx ∧
    (syscall_entry dispatch scratch s0).regs.rsi = s0.regs.rsi ∧
    (syscall_entry dispatch scratch s0).regs.rdi = s0.regs.rdi ∧
    (syscall_entry dispatch scratch s0).regs.rbp = s0.regs.rbp ∧
    (syscall_entry dispatch scratch s0).regs.r8 = s0.regs.r8 ∧
    (syscall_entry dispatch scratch s0).regs.r9 = s0.regs.r9 ∧
    (syscall_entry dispatch scratch s0).regs.r10 = s0.regs.r10 ∧
    (syscall_entry dispatch scratch s0).regs.r11 = s0.regs.r11 ∧
    (syscall_entry dispatch scratch s0).regs.r12 = s0.regs.r12 ∧
    (syscall_entry dispatch scratch s0).regs.r13 = s0.regs.r13 ∧
    (syscall_entry dispatch scratch s0).regs.r14 = s0.regs.r14 ∧
    (syscall_entry dispatch scratch s0).regs.r15 = s0.regs.r15 ∧
    (syscall_entry dispatch scratch s0).rsp = s0.rsp := by
  refine ⟨?_, ?_, ?_, ?_, ?_, ?_, ?_, ?_, ?_, ?_, ?_, ?_, ?_, ?_, ?_, ?_⟩ <;>
    simp only [syscall_entry] <;>
    repeat first
      | rfl
      | rw [writeMem_read_ne _ _ _ _ (by omega)]
      | rw [clobberBelow_read_high _ _ _ _ (by omega)]
      | rw [writeMem_read_eq _ _ _ _ (by omega)]

/-- A concrete pre-trap machine state: rax = 1 (syscall number), rbx = 2,
…, r15 = 15, stack pointer 1000, zeroed memory. -/
def machW : Mach :=
  { regs := ⟨1, 2, 3, 4, 5, 6, 7, 8, 9, 10, 11, 12, 13, 14, 15⟩
    rsp := 1000, mem := fun _ => 0 }

/-- C1 witness: with a dispatcher that returns 7777, the caller gets rax
back unchanged (1, the syscall number) and rbx clobbered to 7777. -/
theorem claim_c1_syscall_entry_witness :
    (syscall_entry (fun _ _ _ _ _ _ _ => 7777) (fun _ => 0) machW).regs.rax = 1 ∧
    (syscall_entry (fun _ _ _ _ _ _ _ => 7777) (fun _ => 0) machW).regs.rbx = 7777 :=
  ⟨(claim_c1_syscall_entry (fun _ _ _ _ _ _ _ => 7777) (fun _ => 0) machW
      (by decide)).1,
   (claim_c1_syscall_entry (fun _ _ _ _ _ _ _ => 7777) (fun _ => 0) machW
      (by decide)).2.1⟩

end Emos
